import Mathlib

/-!
Verification development for the wave-mechanics trading research repository.

The repository's core (in `research/modules/mitch_l1l2_strategy.py` and
`research/modules/mitch_v2_strategy.py`) is a deterministic, single-pass
bar-by-bar simulation over in-memory arrays.  We embed it shallowly:

* prices, ATR/EMA values and P&L are rationals (`ℚ`) — the Python code uses
  IEEE doubles only as exact containers for the arithmetic it performs, and
  every property claimed is an order/algebra property of that arithmetic;
* `NaN` (numpy's missing-value sentinel) becomes `Option ℚ` with `none`,
  and the Python comparisons `x > y` that are `False` when an operand is
  `NaN` become `Option`-aware comparisons that are `false` on `none`;
* per-bar numpy arrays become `List`s indexed with `getD`, and the
  stateful bar loops become explicit step functions on state structures,
  iterated by structural recursion over bar indices;
* the Python trade dicts round recorded prices with `round(·, 2)` purely
  for reporting; trades here carry the exact rational values (all concrete
  inputs used below are exact at two decimals, so nothing depends on this).
-/

namespace Wave

/-! ## Indicator layer (`mitch_l1l2_strategy.py`, lines 24-85) -/

/-- Candidate swing high at index `j` of `highs`, exactly as computed into
`is_swing_high` by `detect_swings` before the confirmation shift: the bar's
high strictly exceeds the highs of the `strength` bars on each side, and the
first/last `strength` indices are forced to `false`. -/
def swingHighCand (highs : List ℚ) (strength j : ℕ) : Bool :=
  decide (strength ≤ j) && decide (j + strength < highs.length) &&
  (List.range strength).all fun s =>
    decide (highs.getD j 0 > highs.getD (j - (s + 1)) 0) &&
    decide (highs.getD j 0 > highs.getD (j + (s + 1)) 0)

/-- Candidate swing low at index `j` of `lows` (mirror of `swingHighCand`,
with strict `<` against both sides). -/
def swingLowCand (lows : List ℚ) (strength j : ℕ) : Bool :=
  decide (strength ≤ j) && decide (j + strength < lows.length) &&
  (List.range strength).all fun s =>
    decide (lows.getD j 0 < lows.getD (j - (s + 1)) 0) &&
    decide (lows.getD j 0 < lows.getD (j + (s + 1)) 0)

/-- `detect_swings` confirmed swing-high flags: the candidate flags shifted
forward by `strength` bars (`sh[strength:] = is_swing_high[:-strength]`), so
the flag for the extremum at `i - strength` is recorded at bar `i`. -/
def detectSwingHigh (highs : List ℚ) (strength : ℕ) : List Bool :=
  (List.range highs.length).map fun i =>
    decide (strength ≤ i) && swingHighCand highs strength (i - strength)

/-- `detect_swings` confirmed swing-low flags (shifted like `detectSwingHigh`). -/
def detectSwingLow (lows : List ℚ) (strength : ℕ) : List Bool :=
  (List.range lows.length).map fun i =>
    decide (strength ≤ i) && swingLowCand lows strength (i - strength)

/-- `compute_swing_prices` for the high side: on a confirmation bar `i`
(`i ≥ strength` and the confirmed flag set) the actual extremum price
`highs[i - strength]` is carried; elsewhere `NaN` (here `none`). -/
def swingHighPriceArr (highs : List ℚ) (sh : List Bool) (strength : ℕ) :
    List (Option ℚ) :=
  (List.range highs.length).map fun i =>
    if decide (strength ≤ i) && sh.getD i false then
      some (highs.getD (i - strength) 0)
    else none

/-- `compute_swing_prices` for the low side. -/
def swingLowPriceArr (lows : List ℚ) (sl : List Bool) (strength : ℕ) :
    List (Option ℚ) :=
  (List.range lows.length).map fun i =>
    if decide (strength ≤ i) && sl.getD i false then
      some (lows.getD (i - strength) 0)
    else none

/-- Binary maximum on ℚ, written with an explicit comparison (Python's
`max`). -/
def qmax (a b : ℚ) : ℚ := if a ≤ b then b else a

/-- Binary minimum on ℚ, written with an explicit comparison (Python's
`min`). -/
def qmin (a b : ℚ) : ℚ := if a ≤ b then a else b

/-- Absolute value on ℚ, written with an explicit comparison (`abs`). -/
def qabs (a : ℚ) : ℚ := if a < 0 then -a else a

/-- True range at bar `i` (`compute_atr`): `high - low` at bar 0, otherwise
`max(high - low, |high - prevClose|, |low - prevClose|)`. -/
def trueRange (highs lows closes : List ℚ) (i : ℕ) : ℚ :=
  if i = 0 then highs.getD 0 0 - lows.getD 0 0
  else
    qmax (highs.getD i 0 - lows.getD i 0)
      (qmax (qabs (highs.getD i 0 - closes.getD (i - 1) 0))
        (qabs (lows.getD i 0 - closes.getD (i - 1) 0)))

/-- ATR at bar `i` (`compute_atr`): the simple rolling mean of the last
`period` true ranges, undefined (`NaN`, here `none`) until the window fills. -/
def atrAt (highs lows closes : List ℚ) (period i : ℕ) : Option ℚ :=
  if period ≤ i + 1 then
    some ((((List.range period).map
      fun k => trueRange highs lows closes (i - k)).sum) / (period : ℚ))
  else none

/-- EMA at bar `i` (`compute_ema`): seeded with the first close, then
`ema[i] = alpha * close[i] + (1 - alpha) * ema[i-1]` with
`alpha = 2 / (period + 1)`. -/
def emaAt (closes : List ℚ) (period : ℕ) : ℕ → ℚ
  | 0 => closes.getD 0 0
  | i + 1 =>
      (2 / ((period : ℚ) + 1)) * closes.getD (i + 1) 0 +
        (1 - 2 / ((period : ℚ) + 1)) * emaAt closes period i

/-! ## Precomputed per-bar data (`precompute_indicators`) -/

/-- The per-bar aligned arrays handed from `precompute_indicators` to the
signal generators and backtests (the `data` dict of numpy arrays). -/
structure MarketData where
  n : ℕ
  opens : List ℚ
  highs : List ℚ
  lows : List ℚ
  closes : List ℚ
  timeF : List ℚ
  dates : List ℤ
  swingHigh : List Bool
  swingLow : List Bool
  shPrice : List (Option ℚ)
  slPrice : List (Option ℚ)
  atr : List (Option ℚ)
  ema : List ℚ
  deriving Repr

/-- `precompute_indicators`: build all per-bar arrays from the raw bars.
`timeF` and `dates` are the time-of-day (hour + minute/60) and calendar-day
metadata taken from the dataframe index. -/
def precompute (opens highs lows closes : List ℚ) (timeF : List ℚ)
    (dates : List ℤ) (strength atrPeriod emaPeriod : ℕ) : MarketData :=
  let n := highs.length
  let sh := detectSwingHigh highs strength
  let sl := detectSwingLow lows strength
  { n := n
    opens := opens
    highs := highs
    lows := lows
    closes := closes
    timeF := timeF
    dates := dates
    swingHigh := sh
    swingLow := sl
    shPrice := swingHighPriceArr highs sh strength
    slPrice := swingLowPriceArr lows sl strength
    atr := (List.range n).map (atrAt highs lows closes atrPeriod)
    ema := (List.range n).map (emaAt closes emaPeriod) }

/-! ## Trend states (`mitch_l1l2_strategy.py`, lines 161-165) -/

def TREND_UNKNOWN : ℤ := 0
def TREND_UP : ℤ := 1
def TREND_DOWN : ℤ := -1
def TREND_RANGE : ℤ := 2

/-- Option-aware strict `>`: mirrors a numpy float comparison, which is
`False` whenever an operand is `NaN`. -/
def oGt (a b : Option ℚ) : Bool :=
  match a, b with
  | some x, some y => decide (x > y)
  | _, _ => false

/-- Option-aware strict `<` (`False` on `NaN`). -/
def oLt (a b : Option ℚ) : Bool :=
  match a, b with
  | some x, some y => decide (x < y)
  | _, _ => false

/-- The parameter dict of the Layer 1+2 strategy (`DEFAULT_PARAMS` keys,
defaults as in the source). -/
structure L1L2Params where
  swingStrength : ℕ := 2
  atrPeriod : ℕ := 14
  emaPeriod : ℕ := 21
  useEmaConfirm : Bool := true
  trackFirstEntries : Bool := true
  slippage : ℚ := 2
  commission : ℚ := 2
  stopBufferAtr : ℚ := 1/2
  maxStopAtr : ℚ := 2
  targetAtrFallback : ℚ := 2
  measuredMoveCapAtr : ℚ := 5
  maxHold : ℕ := 30
  maxDailyLoss : ℚ := -200
  maxConsecLosses : ℕ := 3
  rthStart : ℚ := 17/2
  rthEnd : ℚ := 15
  pointValue : ℚ := 1
  deriving Repr

/-- `_set_levels`: stop and target prices for a signal bar.  Returns
`(none, none)` (levels left `NaN`) when ATR is undefined or zero.
`dir` is `1` for LONG, `-1` for SHORT. -/
def setLevels (p : L1L2Params) (dir : ℤ) (swingPrice : ℚ)
    (triggerPrice refPrice : Option ℚ) (atrI : Option ℚ) :
    Option ℚ × Option ℚ :=
  match atrI with
  | none => (none, none)
  | some a =>
    if a = 0 then (none, none)
    else
      let buf := p.stopBufferAtr
      let maxStop := p.maxStopAtr
      let fallback := p.targetAtrFallback
      let cap := p.measuredMoveCapAtr
      if dir = 1 then
        let rawStop := swingPrice - buf * a
        let rawStop :=
          if swingPrice - rawStop > maxStop * a then swingPrice - maxStop * a
          else rawStop
        let target :=
          match triggerPrice, refPrice with
          | some tg, some rf =>
            let leg1 := qabs (tg - rf)
            let t := swingPrice + leg1
            if t > swingPrice ∧ t - swingPrice ≤ cap * a then t
            else swingPrice + fallback * a
          | _, _ => swingPrice + fallback * a
        (some rawStop, some target)
      else
        let rawStop := swingPrice + buf * a
        let rawStop :=
          if rawStop - swingPrice > maxStop * a then swingPrice + maxStop * a
          else rawStop
        let target :=
          match triggerPrice, refPrice with
          | some tg, some rf =>
            let leg1 := qabs (rf - tg)
            let t := swingPrice - leg1
            if t < swingPrice ∧ swingPrice - t ≤ cap * a then t
            else swingPrice - fallback * a
          | _, _ => swingPrice - fallback * a
        (some rawStop, some target)

/-- Mutable state of the `detect_trend_and_entries` forward pass: the last
two confirmed swing highs/lows (newest first, `NaN` while unpopulated), the
two pullback counters (`-1` marks a consumed count) and the measured-move
reference prices. -/
structure DetectState where
  sh0 : Option ℚ
  sh1 : Option ℚ
  sl0 : Option ℚ
  sl1 : Option ℚ
  longCount : ℤ
  shortCount : ℤ
  longTrig : Option ℚ
  longRef : Option ℚ
  shortTrig : Option ℚ
  shortRef : Option ℚ
  deriving Repr, DecidableEq

def DetectState.init : DetectState :=
  { sh0 := none, sh1 := none, sl0 := none, sl1 := none
    longCount := 0, shortCount := 0
    longTrig := none, longRef := none, shortTrig := none, shortRef := none }

/-- Per-bar output row of `detect_trend_and_entries`. -/
structure SignalBar where
  trend : ℤ
  signal : ℤ
  entryType : ℤ
  stopLevel : Option ℚ
  targetLevel : Option ℚ
  deriving Repr, DecidableEq

/-- The trend classification from the rolling pair (`detect_trend_and_entries`
lines 232-247): UNKNOWN until both pairs are populated, else UP on HH+HL,
DOWN on LH+LL, RANGE otherwise (numpy NaN comparisons are `false`). -/
def classifyTrend (sh0 sh1 sl0 sl1 : Option ℚ) : ℤ :=
  if sh1 = none ∨ sl1 = none then TREND_UNKNOWN
  else
    if oGt sh0 sh1 && oGt sl0 sl1 then TREND_UP
    else if oLt sh0 sh1 && oLt sl0 sl1 then TREND_DOWN
    else TREND_RANGE

/-- Optional EMA confirmation (lines 249-254): demote UP to RANGE when the
close is below the EMA, DOWN to RANGE when it is above.  The source also
guards on `not np.isnan(ema[i])`; our EMA is total, so that guard is always
true here. -/
def emaDemote (p : L1L2Params) (t : ℤ) (close ema : ℚ) : ℤ :=
  if p.useEmaConfirm ∧ t ≠ TREND_UNKNOWN then
    if t = TREND_UP ∧ close < ema then TREND_RANGE
    else if t = TREND_DOWN ∧ close > ema then TREND_RANGE
    else t
  else t

/-- Long-side pullback counting and signal emission (lines 260-287), given
the updated swing pair and the demoted trend.  Returns the new counter,
trigger/reference prices, and the emission (entry type with levels). -/
def longSideUpdate (p : L1L2Params) (trendI : ℤ) (newSh newSl : Bool)
    (sh0 sh1 sl0 : Option ℚ) (slPriceI atrI : Option ℚ) (count : ℤ)
    (trig ref : Option ℚ) :
    ℤ × Option ℚ × Option ℚ × Option (ℤ × Option ℚ × Option ℚ) :=
  if trendI = TREND_UP then
    let rst :=
      if newSh && oGt sh0 sh1 then ((0 : ℤ), sh0, sl0)
      else (count, trig, ref)
    let c0 := rst.1
    let trig0 := rst.2.1
    let ref0 := rst.2.2
    if newSl && decide (0 ≤ c0) then
      let c1 := c0 + 1
      if c1 = 1 ∧ p.trackFirstEntries then
        let lv := setLevels p 1 (slPriceI.getD 0) trig0 ref0 atrI
        (c1, trig0, ref0, some ((1 : ℤ), lv.1, lv.2))
      else if c1 = 2 then
        let lv := setLevels p 1 (slPriceI.getD 0) trig0 ref0 atrI
        ((-1 : ℤ), trig0, ref0, some ((2 : ℤ), lv.1, lv.2))
      else (c1, trig0, ref0, none)
    else (c0, trig0, ref0, none)
  else ((0 : ℤ), trig, ref, none)

/-- Short-side pullback counting and signal emission (lines 289-315),
mirror of `longSideUpdate`. -/
def shortSideUpdate (p : L1L2Params) (trendI : ℤ) (newSh newSl : Bool)
    (sh0 sl0 sl1 : Option ℚ) (shPriceI atrI : Option ℚ) (count : ℤ)
    (trig ref : Option ℚ) :
    ℤ × Option ℚ × Option ℚ × Option (ℤ × Option ℚ × Option ℚ) :=
  if trendI = TREND_DOWN then
    let rst :=
      if newSl && oLt sl0 sl1 then ((0 : ℤ), sl0, sh0)
      else (count, trig, ref)
    let c0 := rst.1
    let trig0 := rst.2.1
    let ref0 := rst.2.2
    if newSh && decide (0 ≤ c0) then
      let c1 := c0 + 1
      if c1 = 1 ∧ p.trackFirstEntries then
        let lv := setLevels p (-1) (shPriceI.getD 0) trig0 ref0 atrI
        (c1, trig0, ref0, some ((1 : ℤ), lv.1, lv.2))
      else if c1 = 2 then
        let lv := setLevels p (-1) (shPriceI.getD 0) trig0 ref0 atrI
        ((-1 : ℤ), trig0, ref0, some ((2 : ℤ), lv.1, lv.2))
      else (c1, trig0, ref0, none)
    else (c0, trig0, ref0, none)
  else ((0 : ℤ), trig, ref, none)

/-- Merge of the two sides’ signal writes into the per-bar output arrays:
the short branch writes after the long branch (the two can never fire on
the same bar, since the trend is a single value). -/
def emittedOf (shortEmit longEmit : Option (ℤ × Option ℚ × Option ℚ)) :
    ℤ × ℤ × Option ℚ × Option ℚ :=
  match shortEmit with
  | some e => (-1, e.1, e.2.1, e.2.2)
  | none =>
    match longEmit with
    | some e => (1, e.1, e.2.1, e.2.2)
    | none => (0, 0, none, none)

/-- One loop iteration of `detect_trend_and_entries` at bar `i`: update the
swing history, classify the trend (with optional EMA demotion), run both
pullback counters and emit at most one entry signal. -/
def detectStep (d : MarketData) (p : L1L2Params) (i : ℕ) (s : DetectState) :
    DetectState × SignalBar :=
  let newSh := d.swingHigh.getD i false && (d.shPrice.getD i none).isSome
  let newSl := d.swingLow.getD i false && (d.slPrice.getD i none).isSome
  let shP := if newSh then (d.shPrice.getD i none, s.sh0) else (s.sh0, s.sh1)
  let slP := if newSl then (d.slPrice.getD i none, s.sl0) else (s.sl0, s.sl1)
  let trendI : ℤ :=
    emaDemote p (classifyTrend shP.1 shP.2 slP.1 slP.2) (d.closes.getD i 0)
      (d.ema.getD i 0)
  let longSide := longSideUpdate p trendI newSh newSl shP.1 shP.2 slP.1
    (d.slPrice.getD i none) (d.atr.getD i none) s.longCount s.longTrig
    s.longRef
  let shortSide := shortSideUpdate p trendI newSh newSl shP.1 slP.1 slP.2
    (d.shPrice.getD i none) (d.atr.getD i none) s.shortCount s.shortTrig
    s.shortRef
  let emitted := emittedOf shortSide.2.2.2 longSide.2.2.2
  ({ sh0 := shP.1, sh1 := shP.2, sl0 := slP.1, sl1 := slP.2
     longCount := longSide.1
     shortCount := shortSide.1
     longTrig := longSide.2.1
     longRef := longSide.2.2.1
     shortTrig := shortSide.2.1
     shortRef := shortSide.2.2.1 },
   { trend := trendI
     signal := emitted.1
     entryType := emitted.2.1
     stopLevel := emitted.2.2.1
     targetLevel := emitted.2.2.2 })

/-- State of `detect_trend_and_entries` before processing bar `i`. -/
def detectStateAt (d : MarketData) (p : L1L2Params) : ℕ → DetectState
  | 0 => DetectState.init
  | i + 1 => (detectStep d p i (detectStateAt d p i)).1

/-- Output row of `detect_trend_and_entries` at bar `i`. -/
def detectBar (d : MarketData) (p : L1L2Params) (i : ℕ) : SignalBar :=
  (detectStep d p i (detectStateAt d p i)).2

/-- `detect_trend_and_entries`: the full list of per-bar outputs. -/
def detectTrendAndEntries (d : MarketData) (p : L1L2Params) : List SignalBar :=
  (List.range d.n).map (detectBar d p)

/-! ## Fixed-stop backtest (`backtest`, `mitch_l1l2_strategy.py` lines 382-617) -/

/-- The per-bar signal arrays consumed by the backtests (the `signals` dict
produced by `detect_trend_and_entries`). -/
structure BtSignals where
  signal : List ℤ
  entryType : List ℤ
  stopLevel : List (Option ℚ)
  targetLevel : List (Option ℚ)
  deriving Repr

/-- Package the output rows of `detect_trend_and_entries` as signal arrays
(the glue inside `run_strategy`). -/
def signalsOfDetect (d : MarketData) (p : L1L2Params) : BtSignals :=
  let rows := detectTrendAndEntries d p
  { signal := rows.map (·.signal)
    entryType := rows.map (·.entryType)
    stopLevel := rows.map (·.stopLevel)
    targetLevel := rows.map (·.targetLevel) }

inductive ExitReason where
  | stop
  | target
  | time
  | trailStop
  deriving Repr, DecidableEq

/-- Trade record appended by `backtest` (prices kept exact; the source
rounds them to two decimals for reporting only). -/
structure BtTrade where
  signalBar : ℕ
  entryBar : ℕ
  exitBar : ℕ
  direction : ℤ
  entryType : ℤ
  entryPrice : ℚ
  exitPrice : ℚ
  stop : ℚ
  target : ℚ
  pnl : ℚ
  barsHeld : ℕ
  reason : ExitReason
  date : ℤ
  deriving Repr, DecidableEq

/-- Mutable loop state of `backtest`: position, pending market order and the
circuit-breaker counters. -/
structure BtState where
  inPosition : Bool
  posType : ℤ
  entryBar : ℕ
  entryPrice : ℚ
  stopPrice : ℚ
  targetPrice : ℚ
  tradeEntryType : ℤ
  tradeSignalBar : ℕ
  hasPending : Bool
  pendingDir : ℤ
  pendingStop : ℚ
  pendingTarget : ℚ
  pendingEntryType : ℤ
  pendingSignalBar : ℕ
  dailyPnl : ℚ
  consecLosses : ℕ
  currentDate : Option ℤ
  deriving Repr, DecidableEq

def BtState.init : BtState :=
  { inPosition := false, posType := 0, entryBar := 0, entryPrice := 0
    stopPrice := 0, targetPrice := 0, tradeEntryType := 0, tradeSignalBar := 0
    hasPending := false, pendingDir := 0, pendingStop := 0, pendingTarget := 0
    pendingEntryType := 0, pendingSignalBar := 0
    dailyPnl := 0, consecLosses := 0, currentDate := none }

/-- Calendar-day rollover at the top of the bar loop: on a date change both
circuit-breaker counters reset to zero. -/
def dayReset (d : MarketData) (i : ℕ) (s : BtState) : BtState :=
  let dt := d.dates.getD i 0
  if s.currentDate = some dt then s
  else { s with currentDate := some dt, dailyPnl := 0, consecLosses := 0 }

/-- Exit evaluation of `backtest` while in a position (lines 449-471): stop
hit via the bar's low/high, else target hit, else time exit at the close
once `bars_held ≥ max_hold`. -/
def exitDecision (posType : ℤ) (stopPrice targetPrice : ℚ)
    (maxHold barsHeld : ℕ) (hi lo cl : ℚ) : Option (ℚ × ExitReason) :=
  let hit : Option (ℚ × ExitReason) :=
    if posType = 1 then
      if lo ≤ stopPrice then some (stopPrice, .stop)
      else if hi ≥ targetPrice then some (targetPrice, .target)
      else none
    else
      if hi ≥ stopPrice then some (stopPrice, .stop)
      else if lo ≤ targetPrice then some (targetPrice, .target)
      else none
  match hit with
  | some e => some e
  | none => if maxHold ≤ barsHeld then some (cl, .time) else none

/-- Realized P&L of a close: direction-signed price difference times the
point value, minus the round-trip commission. -/
def closePnl (p : L1L2Params) (posType : ℤ) (entryPrice exitPrice : ℚ) : ℚ :=
  (if posType = 1 then (exitPrice - entryPrice) * p.pointValue
   else (entryPrice - exitPrice) * p.pointValue) - p.commission

/-- Body of one `backtest` loop iteration after the day rollover: exit
logic, pending-entry fill with same-bar stop/target check, circuit
breakers, RTH filter and signal pickup from the previous bar. -/
def btStepCore (d : MarketData) (sig : BtSignals) (p : L1L2Params) (i : ℕ)
    (s : BtState) : BtState × Option BtTrade :=
  if s.inPosition then
    let barsHeld := i - s.entryBar
    match exitDecision s.posType s.stopPrice s.targetPrice p.maxHold barsHeld
        (d.highs.getD i 0) (d.lows.getD i 0) (d.closes.getD i 0) with
    | some ex =>
      let pnl := closePnl p s.posType s.entryPrice ex.1
      let tr : BtTrade :=
        { signalBar := s.tradeSignalBar, entryBar := s.entryBar, exitBar := i
          direction := s.posType, entryType := s.tradeEntryType
          entryPrice := s.entryPrice, exitPrice := ex.1
          stop := s.stopPrice, target := s.targetPrice, pnl := pnl
          barsHeld := barsHeld, reason := ex.2, date := d.dates.getD i 0 }
      ({ s with
          inPosition := false
          dailyPnl := s.dailyPnl + pnl
          consecLosses :=
            if pnl > 0 then 0
            else if pnl < 0 then s.consecLosses + 1
            else 0 }, some tr)
    | none => (s, none)
  else if s.hasPending then
    let fillPrice :=
      if s.pendingDir = 1 then d.opens.getD i 0 + p.slippage
      else d.opens.getD i 0 - p.slippage
    let s1 :=
      { s with
          inPosition := true
          posType := s.pendingDir
          entryBar := i
          entryPrice := fillPrice
          stopPrice := s.pendingStop
          targetPrice := s.pendingTarget
          tradeEntryType := s.pendingEntryType
          tradeSignalBar := s.pendingSignalBar
          hasPending := false }
    let sameBar : Option (ℚ × ExitReason) :=
      if s1.posType = 1 then
        if d.lows.getD i 0 ≤ s1.stopPrice then some (s1.stopPrice, .stop)
        else if d.highs.getD i 0 ≥ s1.targetPrice then
          some (s1.targetPrice, .target)
        else none
      else
        if d.highs.getD i 0 ≥ s1.stopPrice then some (s1.stopPrice, .stop)
        else if d.lows.getD i 0 ≤ s1.targetPrice then
          some (s1.targetPrice, .target)
        else none
    match sameBar with
    | some ex =>
      let pnl := closePnl p s1.posType s1.entryPrice ex.1
      let tr : BtTrade :=
        { signalBar := s1.tradeSignalBar, entryBar := i, exitBar := i
          direction := s1.posType, entryType := s1.tradeEntryType
          entryPrice := s1.entryPrice, exitPrice := ex.1
          stop := s1.stopPrice, target := s1.targetPrice, pnl := pnl
          barsHeld := 0, reason := ex.2, date := d.dates.getD i 0 }
      -- NOTE (faithful to source): this same-bar close block has no `else`
      -- branch resetting `consec_losses` on a zero P&L
      ({ s1 with
          inPosition := false
          dailyPnl := s1.dailyPnl + pnl
          consecLosses :=
            if pnl > 0 then 0
            else if pnl < 0 then s1.consecLosses + 1
            else s1.consecLosses }, some tr)
    | none => (s1, none)
  else
    if s.dailyPnl ≤ p.maxDailyLoss then (s, none)
    else if p.maxConsecLosses ≤ s.consecLosses then (s, none)
    else
      let t := d.timeF.getD i 0
      if ¬(p.rthStart ≤ t ∧ t < p.rthEnd) then (s, none)
      else
        let prev := i - 1
        if sig.signal.getD prev 0 = 0 then (s, none)
        else
          match d.atr.getD prev none with
          | none => (s, none)
          | some a =>
            if a = 0 then (s, none)
            else
              match sig.stopLevel.getD prev none,
                  sig.targetLevel.getD prev none with
              | some stp, some tgt =>
                ({ s with
                    hasPending := true
                    pendingDir := sig.signal.getD prev 0
                    pendingStop := stp
                    pendingTarget := tgt
                    pendingEntryType := sig.entryType.getD prev 0
                    pendingSignalBar := prev }, none)
              | _, _ => (s, none)

/-- One full `backtest` loop iteration at bar `i`. -/
def btStep (d : MarketData) (sig : BtSignals) (p : L1L2Params) (i : ℕ)
    (s : BtState) : BtState × Option BtTrade :=
  btStepCore d sig p i (dayReset d i s)

/-- State of `backtest` before processing bar `i` (the loop starts at bar 1,
so the state before bars 0 and 1 is the initial state). -/
def btStateAt (d : MarketData) (sig : BtSignals) (p : L1L2Params) :
    ℕ → BtState
  | 0 => BtState.init
  | i + 1 =>
      if i = 0 then BtState.init
      else (btStep d sig p i (btStateAt d sig p i)).1

/-- Trade emitted by `backtest` at bar `i`, if any. -/
def btTradeAt (d : MarketData) (sig : BtSignals) (p : L1L2Params) (i : ℕ) :
    Option BtTrade :=
  if i = 0 then none else (btStep d sig p i (btStateAt d sig p i)).2

/-- `backtest`: the ordered list of closed trades. -/
def backtestRun (d : MarketData) (sig : BtSignals) (p : L1L2Params) :
    List BtTrade :=
  (List.range d.n).filterMap (btTradeAt d sig p)

/-- Circuit-breaker breach condition gating new entries (`backtest` lines
583-586): daily P&L at or below the (negative) daily loss limit, or the
consecutive-loss count at or above the maximum. -/
def breach (p : L1L2Params) (s : BtState) : Prop :=
  s.dailyPnl ≤ p.maxDailyLoss ∨ p.maxConsecLosses ≤ s.consecLosses

instance (p : L1L2Params) (s : BtState) : Decidable (breach p s) := by
  unfold breach; infer_instance

/-! ### Specification-side exit evaluation (for the exit-priority claim) -/

/-- First-match evaluation of an ordered list of exit conditions, written
from the specification's words: the first condition that holds wins and its
associated price is the exit price. -/
def specFirstMatch (conds : List (Bool × ℚ × ExitReason)) :
    Option (ℚ × ExitReason) :=
  match conds.filter (·.1) with
  | [] => none
  | c :: _ => some c.2

/-- Modelled from the spec's words: exits are evaluated in the fixed order
stop hit (low/high touching the stop) → target hit → time exit
(bars held ≥ max hold); stop and target exits record the level itself,
time exits record the bar's close. -/
def specExitOrdered (posType : ℤ) (stopPrice targetPrice : ℚ)
    (maxHold barsHeld : ℕ) (hi lo cl : ℚ) : Option (ℚ × ExitReason) :=
  specFirstMatch
    [(if posType = 1 then decide (lo ≤ stopPrice) else decide (hi ≥ stopPrice),
      stopPrice, .stop),
     (if posType = 1 then decide (hi ≥ targetPrice) else decide (lo ≤ targetPrice),
      targetPrice, .target),
     (decide (maxHold ≤ barsHeld), cl, .time)]

/-- Specification-side consecutive-loss update ("increment
`consecutiveLosses` on a loss, reset it to 0 on a non-negative result"). -/
def specConsecLossesUpdate (c : ℕ) (pnl : ℚ) : ℕ :=
  if pnl < 0 then c + 1 else 0

/-! ## Trailing backtest (`backtest_trailing`, lines 745-1040) -/

/-- Trailing parameters read with `params.get` defaults in the source. -/
structure TrailParams where
  base : L1L2Params := {}
  trailBufferAtr : ℚ := 3/10
  useBreakeven : Bool := true
  trailOnly : Bool := false
  keepTargetOpt : Bool := true
  deriving Repr

/-- `keep_target = params.get('keep_target', True) and not trail_only`. -/
def TrailParams.keepTarget (p : TrailParams) : Bool :=
  p.keepTargetOpt && !p.trailOnly

/-- The trail buffer used at bar `i`: `trail_buffer_atr` times the ATR of
the bar (falling back to the previous bar's ATR, then to a zero buffer when
both are undefined). -/
def trailBufAt (d : MarketData) (trailBufAtr : ℚ) (i : ℕ) : ℚ :=
  let aNow : Option ℚ :=
    match d.atr.getD i none with
    | some a => some a
    | none => d.atr.getD (i - 1) none
  match aNow with
  | some a => trailBufAtr * a
  | none => 0

/-- Trailing-stop update executed before exit checks while in position
(`backtest_trailing` lines 832-866): on a new confirmed favorable swing,
move to breakeven once (if enabled and the swing improves on the entry) and
ratchet the stop behind the swing ± buffer, only ever tightening. -/
def trailUpdate (d : MarketData) (trailBufAtr : ℚ) (useBreakeven : Bool)
    (i : ℕ) (posType : ℤ) (entryPrice stopPrice : ℚ) (beMoved : Bool)
    (trailCount : ℕ) : ℚ × Bool × ℕ :=
  let buf : ℚ := trailBufAt d trailBufAtr i
  if posType = 1 then
    if d.swingLow.getD i false && (d.slPrice.getD i none).isSome then
      let swLow := (d.slPrice.getD i none).getD 0
      let newStop := swLow - buf
      let st1 :=
        if useBreakeven ∧ ¬beMoved ∧ swLow > entryPrice then
          (qmax stopPrice entryPrice, true, trailCount + 1)
        else (stopPrice, beMoved, trailCount)
      if newStop > st1.1 then (newStop, st1.2.1, st1.2.2 + 1) else st1
    else (stopPrice, beMoved, trailCount)
  else
    if d.swingHigh.getD i false && (d.shPrice.getD i none).isSome then
      let swHigh := (d.shPrice.getD i none).getD 0
      let newStop := swHigh + buf
      let st1 :=
        if useBreakeven ∧ ¬beMoved ∧ swHigh < entryPrice then
          (qmin stopPrice entryPrice, true, trailCount + 1)
        else (stopPrice, beMoved, trailCount)
      if newStop < st1.1 then (newStop, st1.2.1, st1.2.2 + 1) else st1
    else (stopPrice, beMoved, trailCount)

/-- Trade record of `backtest_trailing` (adds the final stop and the trail
adjustment count). -/
structure TrailTrade where
  signalBar : ℕ
  entryBar : ℕ
  exitBar : ℕ
  direction : ℤ
  entryType : ℤ
  entryPrice : ℚ
  exitPrice : ℚ
  stop : ℚ
  finalStop : ℚ
  target : ℚ
  pnl : ℚ
  barsHeld : ℕ
  reason : ExitReason
  trailCount : ℕ
  date : ℤ
  deriving Repr, DecidableEq

/-- Mutable loop state of `backtest_trailing`. -/
structure TrailState where
  inPosition : Bool
  posType : ℤ
  entryBar : ℕ
  entryPrice : ℚ
  stopPrice : ℚ
  targetPrice : ℚ
  tradeEntryType : ℤ
  tradeSignalBar : ℕ
  initialStop : ℚ
  beMoved : Bool
  trailCount : ℕ
  hasPending : Bool
  pendingDir : ℤ
  pendingStop : ℚ
  pendingTarget : ℚ
  pendingEntryType : ℤ
  pendingSignalBar : ℕ
  dailyPnl : ℚ
  consecLosses : ℕ
  currentDate : Option ℤ
  deriving Repr, DecidableEq

def TrailState.init : TrailState :=
  { inPosition := false, posType := 0, entryBar := 0, entryPrice := 0
    stopPrice := 0, targetPrice := 0, tradeEntryType := 0, tradeSignalBar := 0
    initialStop := 0, beMoved := false, trailCount := 0
    hasPending := false, pendingDir := 0, pendingStop := 0, pendingTarget := 0
    pendingEntryType := 0, pendingSignalBar := 0
    dailyPnl := 0, consecLosses := 0, currentDate := none }

/-- Day rollover for the trailing backtest (same as `dayReset`). -/
def trailDayReset (d : MarketData) (i : ℕ) (s : TrailState) : TrailState :=
  let dt := d.dates.getD i 0
  if s.currentDate = some dt then s
  else { s with currentDate := some dt, dailyPnl := 0, consecLosses := 0 }

/-- Exit evaluation of `backtest_trailing` (lines 868-891): stop hit
(reported as a trail stop once any trail adjustment happened), else target
hit when a fixed target is kept, else time exit. -/
def trailExitDecision (keepTarget : Bool) (trailCount : ℕ) (posType : ℤ)
    (stopPrice targetPrice : ℚ) (maxHold barsHeld : ℕ) (hi lo cl : ℚ) :
    Option (ℚ × ExitReason) :=
  let hit : Option (ℚ × ExitReason) :=
    if posType = 1 then
      if lo ≤ stopPrice then
        some (stopPrice, if trailCount > 0 then .trailStop else .stop)
      else if keepTarget && decide (hi ≥ targetPrice) then
        some (targetPrice, .target)
      else none
    else
      if hi ≥ stopPrice then
        some (stopPrice, if trailCount > 0 then .trailStop else .stop)
      else if keepTarget && decide (lo ≤ targetPrice) then
        some (targetPrice, .target)
      else none
  match hit with
  | some e => some e
  | none => if maxHold ≤ barsHeld then some (cl, .time) else none

/-- Body of one `backtest_trailing` loop iteration after the day rollover. -/
def trailStepCore (d : MarketData) (sig : BtSignals) (p : TrailParams)
    (i : ℕ) (s : TrailState) : TrailState × Option TrailTrade :=
  if s.inPosition then
    let upd := trailUpdate d p.trailBufferAtr p.useBreakeven i s.posType
      s.entryPrice s.stopPrice s.beMoved s.trailCount
    let s1 :=
      { s with
          stopPrice := upd.1
          beMoved := upd.2.1
          trailCount := upd.2.2 }
    let barsHeld := i - s1.entryBar
    match trailExitDecision p.keepTarget s1.trailCount s1.posType s1.stopPrice
        s1.targetPrice p.base.maxHold barsHeld (d.highs.getD i 0)
        (d.lows.getD i 0) (d.closes.getD i 0) with
    | some ex =>
      let pnl := closePnl p.base s1.posType s1.entryPrice ex.1
      let tr : TrailTrade :=
        { signalBar := s1.tradeSignalBar, entryBar := s1.entryBar, exitBar := i
          direction := s1.posType, entryType := s1.tradeEntryType
          entryPrice := s1.entryPrice, exitPrice := ex.1
          stop := s1.initialStop, finalStop := s1.stopPrice
          target := if p.keepTarget then s1.targetPrice else 0
          pnl := pnl, barsHeld := barsHeld, reason := ex.2
          trailCount := s1.trailCount, date := d.dates.getD i 0 }
      ({ s1 with
          inPosition := false
          dailyPnl := s1.dailyPnl + pnl
          consecLosses :=
            if pnl > 0 then 0
            else if pnl < 0 then s1.consecLosses + 1
            else 0 }, some tr)
    | none => (s1, none)
  else if s.hasPending then
    let fillPrice :=
      if s.pendingDir = 1 then d.opens.getD i 0 + p.base.slippage
      else d.opens.getD i 0 - p.base.slippage
    let s1 :=
      { s with
          inPosition := true
          posType := s.pendingDir
          entryBar := i
          entryPrice := fillPrice
          stopPrice := s.pendingStop
          initialStop := s.pendingStop
          targetPrice := s.pendingTarget
          tradeEntryType := s.pendingEntryType
          tradeSignalBar := s.pendingSignalBar
          hasPending := false
          beMoved := false
          trailCount := 0 }
    let sameBar : Option (ℚ × ExitReason) :=
      if s1.posType = 1 then
        if d.lows.getD i 0 ≤ s1.stopPrice then some (s1.stopPrice, .stop)
        else if p.keepTarget && decide (d.highs.getD i 0 ≥ s1.targetPrice) then
          some (s1.targetPrice, .target)
        else none
      else
        if d.highs.getD i 0 ≥ s1.stopPrice then some (s1.stopPrice, .stop)
        else if p.keepTarget && decide (d.lows.getD i 0 ≤ s1.targetPrice) then
          some (s1.targetPrice, .target)
        else none
    match sameBar with
    | some ex =>
      let pnl := closePnl p.base s1.posType s1.entryPrice ex.1
      let tr : TrailTrade :=
        { signalBar := s1.tradeSignalBar, entryBar := i, exitBar := i
          direction := s1.posType, entryType := s1.tradeEntryType
          entryPrice := s1.entryPrice, exitPrice := ex.1
          stop := s1.initialStop, finalStop := s1.stopPrice
          target := if p.keepTarget then s1.targetPrice else 0
          pnl := pnl, barsHeld := 0, reason := ex.2
          trailCount := 0, date := d.dates.getD i 0 }
      -- NOTE (faithful to source): no `else` resetting `consec_losses` on a
      -- zero P&L in this same-bar close block either
      ({ s1 with
          inPosition := false
          dailyPnl := s1.dailyPnl + pnl
          consecLosses :=
            if pnl > 0 then 0
            else if pnl < 0 then s1.consecLosses + 1
            else s1.consecLosses }, some tr)
    | none => (s1, none)
  else
    if s.dailyPnl ≤ p.base.maxDailyLoss then (s, none)
    else if p.base.maxConsecLosses ≤ s.consecLosses then (s, none)
    else
      let t := d.timeF.getD i 0
      if ¬(p.base.rthStart ≤ t ∧ t < p.base.rthEnd) then (s, none)
      else
        let prev := i - 1
        if sig.signal.getD prev 0 = 0 then (s, none)
        else
          match d.atr.getD prev none with
          | none => (s, none)
          | some a =>
            if a = 0 then (s, none)
            else
              match sig.stopLevel.getD prev none,
                  sig.targetLevel.getD prev none with
              | some stp, some tgt =>
                ({ s with
                    hasPending := true
                    pendingDir := sig.signal.getD prev 0
                    pendingStop := stp
                    pendingTarget := tgt
                    pendingEntryType := sig.entryType.getD prev 0
                    pendingSignalBar := prev }, none)
              | _, _ => (s, none)

/-- One full `backtest_trailing` loop iteration at bar `i`. -/
def trailStep (d : MarketData) (sig : BtSignals) (p : TrailParams) (i : ℕ)
    (s : TrailState) : TrailState × Option TrailTrade :=
  trailStepCore d sig p i (trailDayReset d i s)

/-- State of `backtest_trailing` before processing bar `i`. -/
def trailStateAt (d : MarketData) (sig : BtSignals) (p : TrailParams) :
    ℕ → TrailState
  | 0 => TrailState.init
  | i + 1 =>
      if i = 0 then TrailState.init
      else (trailStep d sig p i (trailStateAt d sig p i)).1

/-- Trade emitted by `backtest_trailing` at bar `i`, if any. -/
def trailTradeAt (d : MarketData) (sig : BtSignals) (p : TrailParams)
    (i : ℕ) : Option TrailTrade :=
  if i = 0 then none else (trailStep d sig p i (trailStateAt d sig p i)).2

/-- `backtest_trailing`: the ordered list of closed trades. -/
def backtestTrailingRun (d : MarketData) (sig : BtSignals) (p : TrailParams) :
    List TrailTrade :=
  (List.range d.n).filterMap (trailTradeAt d sig p)

/-! ## V2 support/resistance strategy (`mitch_v2_strategy.py`) -/

/-- MNQ minimum tick (`MNQ_TICK = 0.25`). -/
def MNQ_TICK : ℚ := 1/4

/-- The V2 parameter dict (`DEFAULT_V2_PARAMS`, defaults as in source). -/
structure V2Params where
  swingStrength : ℕ := 2
  atrPeriod : ℕ := 14
  emaPeriod : ℕ := 21
  srToleranceAtr : ℚ := 1
  srMaxLevels : ℕ := 30
  srClusterAtr : ℚ := 1/2
  srMaxAge : ℕ := 200
  signalBarClosePct : ℚ := 2/5
  signalBarBodyPct : ℚ := 3/20
  signalBarMinAtr : ℚ := 3/20
  signalBarMaxAtr : ℚ := 3
  orderTimeout : ℕ := 3
  slippage : ℚ := 1
  commission : ℚ := 2
  minStopAtr : ℚ := 3/10
  maxStopAtr : ℚ := 2
  trailBufferAtr : ℚ := 4/5
  useBreakeven : Bool := true
  maxHold : ℕ := 90
  maxDailyLoss : ℚ := -200
  maxConsecLosses : ℕ := 3
  rthStart : ℚ := 17/2
  rthEnd : ℚ := 15
  pointValue : ℚ := 1
  minTouchesPullback : ℕ := 2
  minTouchesTriple : ℕ := 3
  failureLookback : ℕ := 10
  tradeWithTrend : Bool := true
  deriving Repr

inductive ZoneKind where
  | support
  | resistance
  deriving Repr, DecidableEq

/-- `SRZone`: a support or resistance zone defined by clustered swing
points; its price is the mean of all touch prices. -/
structure SRZone where
  price : ℚ
  zoneKind : ZoneKind
  touches : List (ℕ × ℚ)
  lastBar : ℕ
  deriving Repr, DecidableEq

/-- `SRZone.__init__`. -/
def SRZone.new (price : ℚ) (barIdx : ℕ) (zk : ZoneKind) : SRZone :=
  { price := price, zoneKind := zk, touches := [(barIdx, price)]
    lastBar := barIdx }

/-- `SRZone.add_touch`: append the touch, recompute the price as the mean
of all touch prices, refresh the last-touch bar. -/
def SRZone.addTouch (z : SRZone) (barIdx : ℕ) (price : ℚ) : SRZone :=
  let touches := z.touches ++ [(barIdx, price)]
  { z with
      touches := touches
      price := (touches.map (·.2)).sum / (touches.length : ℚ)
      lastBar := barIdx }

def SRZone.touchCount (z : SRZone) : ℕ := z.touches.length

/-- First pass of `update_sr_zones`: merge the new swing point into the
first zone of matching kind within the cluster tolerance, if any. -/
def mergeTouch (p : ℚ) (b : ℕ) (zk : ZoneKind) (tol : ℚ) :
    List SRZone → Option (List SRZone)
  | [] => none
  | z :: rest =>
    if z.zoneKind = zk ∧ qabs (z.price - p) ≤ tol then
      some (z.addTouch b p :: rest)
    else (mergeTouch p b zk tol rest).map (z :: ·)

/-- Stable insertion (after existing entries with key ≤) used to model
Python's stable ascending sort by `last_bar`. -/
def insertByLastBar (z : SRZone) : List SRZone → List SRZone
  | [] => [z]
  | w :: rest =>
    if w.lastBar ≤ z.lastBar then w :: insertByLastBar z rest
    else z :: w :: rest

def sortByLastBar (zs : List SRZone) : List SRZone :=
  zs.foldl (fun acc z => insertByLastBar z acc) []

/-- `update_sr_zones`: merge into an existing zone when close enough (early
return), else append a new zone, expire zones older than `max_age` bars and
cap the list at the `max_levels` most recently touched zones. -/
def updateSRZones (zones : List SRZone) (newPrice : ℚ) (barIdx : ℕ)
    (zk : ZoneKind) (clusterTol : ℚ) (maxAge maxLevels : ℕ) : List SRZone :=
  match mergeTouch newPrice barIdx zk clusterTol zones with
  | some zs => zs
  | none =>
    let zs := zones ++ [SRZone.new newPrice barIdx zk]
    let zs := zs.filter fun z => barIdx - z.lastBar ≤ maxAge
    if maxLevels < zs.length then
      (sortByLastBar zs).drop (zs.length - maxLevels)
    else zs

/-- `find_nearby_zone`: closest zone of the given kind within tolerance
(first wins on distance ties, via strict improvement over `tolerance + 1`). -/
def findNearbyZone (zones : List SRZone) (price tol : ℚ) (zk : ZoneKind) :
    Option SRZone :=
  (zones.foldl
    (fun acc z =>
      if z.zoneKind = zk ∧ qabs (z.price - price) ≤ tol ∧
          qabs (z.price - price) < acc.2
      then (some z, qabs (z.price - price))
      else acc)
    ((none : Option SRZone), tol + 1)).1

/-- `check_signal_bar`: bar-quality filter (range in ATR bounds, minimum
body fraction, close positioned toward the favorable extreme, close on the
favorable side of the open). -/
def checkSignalBar (p : V2Params) (openP hi lo cl : ℚ) (atrI : Option ℚ)
    (dir : ℤ) : Bool :=
  let barRange := hi - lo
  if barRange ≤ 0 then false
  else
    match atrI with
    | none => false
    | some a =>
      if a ≤ 0 then false
      else if barRange < p.signalBarMinAtr * a then false
      else if barRange > p.signalBarMaxAtr * a then false
      else if qabs (cl - openP) / barRange < p.signalBarBodyPct then false
      else
        if dir = 1 then
          if cl ≤ openP then false
          else if (cl - lo) / barRange < 1 - p.signalBarClosePct then false
          else true
        else
          if cl ≥ openP then false
          else if (hi - cl) / barRange < 1 - p.signalBarClosePct then false
          else true

inductive SigPattern where
  | noSig
  | pullback
  | tripleTest
  | failureBreak
  deriving Repr, DecidableEq

/-- `detect_pattern_at_support`: triple test at 3+ touches, pullback at 2+,
else a failure pattern when price recently broke below the zone. -/
def detectPatternAtSupport (barIdx : ℕ) (zone : SRZone)
    (recentBreaks : List (ℕ × ℚ)) (p : V2Params) : Option SigPattern :=
  if p.minTouchesTriple ≤ zone.touchCount then some .tripleTest
  else if p.minTouchesPullback ≤ zone.touchCount then some .pullback
  else if recentBreaks.any (fun t => barIdx - t.1 ≤ p.failureLookback) then
    some .failureBreak
  else none

/-- `detect_pattern_at_resistance` (mirror of the support version). -/
def detectPatternAtResistance (barIdx : ℕ) (zone : SRZone)
    (recentBreaks : List (ℕ × ℚ)) (p : V2Params) : Option SigPattern :=
  if p.minTouchesTriple ≤ zone.touchCount then some .tripleTest
  else if p.minTouchesPullback ≤ zone.touchCount then some .pullback
  else if recentBreaks.any (fun t => barIdx - t.1 ≤ p.failureLookback) then
    some .failureBreak
  else none

/-- Mutable state of the `detect_signals_v2` forward pass. -/
structure V2SigState where
  sh0 : Option ℚ
  sh1 : Option ℚ
  sl0 : Option ℚ
  sl1 : Option ℚ
  currentTrend : ℤ
  zones : List SRZone
  supportBreaks : List (ℕ × ℚ)
  resistBreaks : List (ℕ × ℚ)
  lastSignalZonePrice : Option ℚ
  lastSignalBar : ℤ
  deriving Repr, DecidableEq

def V2SigState.init : V2SigState :=
  { sh0 := none, sh1 := none, sl0 := none, sl1 := none
    currentTrend := TREND_UNKNOWN, zones := []
    supportBreaks := [], resistBreaks := []
    lastSignalZonePrice := none, lastSignalBar := -999 }

/-- Per-bar output row of `detect_signals_v2`. -/
structure V2SignalBar where
  signal : ℤ
  sigPattern : SigPattern
  entryPrice : Option ℚ
  stopPrice : Option ℚ
  trend : ℤ
  deriving Repr, DecidableEq

def V2SignalBar.empty (trend : ℤ) : V2SignalBar :=
  { signal := 0, sigPattern := .noSig, entryPrice := none, stopPrice := none
    trend := trend }

/-- Long-signal attempt of `detect_signals_v2` at bar `i` (the block
checking price near support): returns the pattern, stop-order entry price,
initial stop and the zone price on success.  A `pass` on an over-wide stop
returns `none`, falling through to the short check, exactly as in source. -/
def v2LongAttempt (d : MarketData) (p : V2Params) (i : ℕ) (a srTol : ℚ)
    (trend : ℤ) (zones : List SRZone) (supBreaks : List (ℕ × ℚ)) :
    Option (SigPattern × ℚ × ℚ × ℚ) :=
  let canLong := ¬p.tradeWithTrend ∨ trend = TREND_UP ∨ trend = TREND_RANGE
  if canLong then
    match findNearbyZone zones (d.lows.getD i 0) srTol .support with
    | none => none
    | some zone =>
      match detectPatternAtSupport i zone supBreaks p with
      | none => none
      | some pat =>
        if checkSignalBar p (d.opens.getD i 0) (d.highs.getD i 0)
            (d.lows.getD i 0) (d.closes.getD i 0) (some a) 1 then
          let entryP := d.highs.getD i 0 + MNQ_TICK
          let stopP := d.lows.getD i 0 - MNQ_TICK
          let stopDist := entryP - stopP
          let stopP :=
            if stopDist < p.minStopAtr * a then entryP - p.minStopAtr * a
            else stopP
          if stopDist > p.maxStopAtr * a then none
          else some (pat, entryP, stopP, zone.price)
        else none
  else none

/-- Short-signal attempt of `detect_signals_v2` (price near resistance),
mirror of `v2LongAttempt`. -/
def v2ShortAttempt (d : MarketData) (p : V2Params) (i : ℕ) (a srTol : ℚ)
    (trend : ℤ) (zones : List SRZone) (resBreaks : List (ℕ × ℚ)) :
    Option (SigPattern × ℚ × ℚ × ℚ) :=
  let canShort := ¬p.tradeWithTrend ∨ trend = TREND_DOWN ∨ trend = TREND_RANGE
  if canShort then
    match findNearbyZone zones (d.highs.getD i 0) srTol .resistance with
    | none => none
    | some zone =>
      match detectPatternAtResistance i zone resBreaks p with
      | none => none
      | some pat =>
        if checkSignalBar p (d.opens.getD i 0) (d.highs.getD i 0)
            (d.lows.getD i 0) (d.closes.getD i 0) (some a) (-1) then
          let entryP := d.lows.getD i 0 - MNQ_TICK
          let stopP := d.highs.getD i 0 + MNQ_TICK
          let stopDist := stopP - entryP
          let stopP :=
            if stopDist < p.minStopAtr * a then entryP + p.minStopAtr * a
            else stopP
          if stopDist > p.maxStopAtr * a then none
          else some (pat, entryP, stopP, zone.price)
        else none
  else none

/-- Signal-attempt tail of a `detect_signals_v2` iteration (source lines
426-459): try a long signal at support first and only on its failure a
short at resistance; an emission stamps the zone price and the bar index
into the state. -/
def v2TrySignals (d : MarketData) (p : V2Params) (i : ℕ) (a srTol : ℚ)
    (trendNow : ℤ) (zones2 : List SRZone)
    (supBreaks resBreaks : List (ℕ × ℚ)) (s1 : V2SigState) :
    V2SigState × V2SignalBar :=
  match v2LongAttempt d p i a srTol trendNow zones2 supBreaks with
  | some e =>
    ({ s1 with
        lastSignalZonePrice := some e.2.2.2
        lastSignalBar := (i : ℤ) },
     { signal := 1, sigPattern := e.1, entryPrice := some e.2.1
       stopPrice := some e.2.2.1, trend := trendNow })
  | none =>
    match v2ShortAttempt d p i a srTol trendNow zones2 resBreaks with
    | some e =>
      ({ s1 with
          lastSignalZonePrice := some e.2.2.2
          lastSignalBar := (i : ℤ) },
       { signal := -1, sigPattern := e.1, entryPrice := some e.2.1
         stopPrice := some e.2.2.1, trend := trendNow })
    | none => (s1, V2SignalBar.empty trendNow)

/-- One loop iteration of `detect_signals_v2` at bar `i ≥ 1`: skip the bar
when ATR is undefined or nonpositive; otherwise update swing history, S/R
zones, trend and breakout lists, then (outside the 5-bar signal cooldown)
try a long signal at support and, failing that, a short at resistance. -/
def v2SigStep (d : MarketData) (p : V2Params) (i : ℕ) (s : V2SigState) :
    V2SigState × V2SignalBar :=
  match d.atr.getD i none with
  | none => (s, V2SignalBar.empty s.currentTrend)
  | some a =>
    if a ≤ 0 then (s, V2SignalBar.empty s.currentTrend)
    else
      let clusterTol := p.srClusterAtr * a
      let srTol := p.srToleranceAtr * a
      let newSh := d.swingHigh.getD i false && (d.shPrice.getD i none).isSome
      let newSl := d.swingLow.getD i false && (d.slPrice.getD i none).isSome
      let shP := if newSh then (d.shPrice.getD i none, s.sh0) else (s.sh0, s.sh1)
      let slP := if newSl then (d.slPrice.getD i none, s.sl0) else (s.sl0, s.sl1)
      let zones1 :=
        if newSh then
          updateSRZones s.zones ((d.shPrice.getD i none).getD 0) i .resistance
            clusterTol p.srMaxAge p.srMaxLevels
        else s.zones
      let zones2 :=
        if newSl then
          updateSRZones zones1 ((d.slPrice.getD i none).getD 0) i .support
            clusterTol p.srMaxAge p.srMaxLevels
        else zones1
      let trendNow : ℤ :=
        if shP.2 = none ∨ slP.2 = none then TREND_UNKNOWN
        else
          if oGt shP.1 shP.2 && oGt slP.1 slP.2 then TREND_UP
          else if oLt shP.1 shP.2 && oLt slP.1 slP.2 then TREND_DOWN
          else TREND_RANGE
      let supBreaks :=
        (s.supportBreaks ++
          ((zones2.filter fun z =>
            z.zoneKind = .support ∧ d.lows.getD i 0 < z.price - srTol).map
            fun z => (i, z.price))).filter
          fun t => i - t.1 ≤ p.failureLookback
      let resBreaks :=
        (s.resistBreaks ++
          ((zones2.filter fun z =>
            z.zoneKind = .resistance ∧ d.highs.getD i 0 > z.price + srTol).map
            fun z => (i, z.price))).filter
          fun t => i - t.1 ≤ p.failureLookback
      let s1 : V2SigState :=
        { s with
            sh0 := shP.1
            sh1 := shP.2
            sl0 := slP.1
            sl1 := slP.2
            currentTrend := trendNow
            zones := zones2
            supportBreaks := supBreaks
            resistBreaks := resBreaks }
      if (i : ℤ) - s.lastSignalBar < 5 then
        (s1, V2SignalBar.empty trendNow)
      else
        v2TrySignals d p i a srTol trendNow zones2 supBreaks resBreaks s1

/-- State of `detect_signals_v2` before processing bar `i` (its loop starts
at bar 1). -/
def v2SigStateAt (d : MarketData) (p : V2Params) : ℕ → V2SigState
  | 0 => V2SigState.init
  | i + 1 =>
      if i = 0 then V2SigState.init
      else (v2SigStep d p i (v2SigStateAt d p i)).1

/-- Output row of `detect_signals_v2` at bar `i` (bar 0 keeps the array
defaults). -/
def v2SigBar (d : MarketData) (p : V2Params) (i : ℕ) : V2SignalBar :=
  if i = 0 then V2SignalBar.empty TREND_UNKNOWN
  else (v2SigStep d p i (v2SigStateAt d p i)).2

/-- `detect_signals_v2`: the full list of per-bar signal rows. -/
def detectSignalsV2 (d : MarketData) (p : V2Params) : List V2SignalBar :=
  (List.range d.n).map (v2SigBar d p)

/-! ## V2 backtest (`backtest_v2`, `mitch_v2_strategy.py` lines 474-753) -/

/-- The `signals` dict consumed by `backtest_v2`. -/
structure V2Signals where
  signal : List ℤ
  sigPattern : List SigPattern
  entryPrice : List (Option ℚ)
  stopPrice : List (Option ℚ)
  trend : List ℤ
  deriving Repr

/-- Package `detect_signals_v2` rows as signal arrays. -/
def v2SignalsOf (d : MarketData) (p : V2Params) : V2Signals :=
  let rows := detectSignalsV2 d p
  { signal := rows.map (·.signal)
    sigPattern := rows.map (·.sigPattern)
    entryPrice := rows.map (·.entryPrice)
    stopPrice := rows.map (·.stopPrice)
    trend := rows.map (·.trend) }

/-- Trade record of `backtest_v2`. -/
structure V2Trade where
  signalBar : ℕ
  entryBar : ℕ
  exitBar : ℕ
  direction : ℤ
  sigPattern : SigPattern
  trendState : ℤ
  entryPrice : ℚ
  exitPrice : ℚ
  stop : ℚ
  finalStop : ℚ
  pnl : ℚ
  barsHeld : ℕ
  reason : ExitReason
  trailCount : ℕ
  date : ℤ
  deriving Repr, DecidableEq

/-- Mutable loop state of `backtest_v2`: position with trailing stop,
pending stop order with placement bar, breaker counters, and the
signal/fill tallies the function returns. -/
structure V2BtState where
  inPosition : Bool
  posType : ℤ
  entryBar : ℕ
  entryPrice : ℚ
  stopPricePos : ℚ
  initialStop : ℚ
  beMoved : Bool
  trailCount : ℕ
  tradeSignalBar : ℕ
  tradePattern : SigPattern
  tradeTrend : ℤ
  hasPending : Bool
  pendingDir : ℤ
  pendingEntryPrice : ℚ
  pendingStopPrice : ℚ
  pendingSignalBar : ℕ
  pendingPlacedBar : ℕ
  pendingPattern : SigPattern
  pendingTrend : ℤ
  dailyPnl : ℚ
  consecLosses : ℕ
  currentDate : Option ℤ
  totalSignals : ℕ
  totalFills : ℕ
  deriving Repr, DecidableEq

def V2BtState.init : V2BtState :=
  { inPosition := false, posType := 0, entryBar := 0, entryPrice := 0
    stopPricePos := 0, initialStop := 0, beMoved := false, trailCount := 0
    tradeSignalBar := 0, tradePattern := .noSig, tradeTrend := 0
    hasPending := false, pendingDir := 0, pendingEntryPrice := 0
    pendingStopPrice := 0, pendingSignalBar := 0, pendingPlacedBar := 0
    pendingPattern := .noSig, pendingTrend := 0
    dailyPnl := 0, consecLosses := 0, currentDate := none
    totalSignals := 0, totalFills := 0 }

/-- Day rollover for `backtest_v2`. -/
def v2DayReset (d : MarketData) (i : ℕ) (s : V2BtState) : V2BtState :=
  let dt := d.dates.getD i 0
  if s.currentDate = some dt then s
  else { s with currentDate := some dt, dailyPnl := 0, consecLosses := 0 }

/-- Exit evaluation of `backtest_v2` (trail-only): stop hit, else time exit. -/
def v2ExitDecision (trailCount : ℕ) (posType : ℤ) (stopPrice : ℚ)
    (maxHold barsHeld : ℕ) (hi lo cl : ℚ) : Option (ℚ × ExitReason) :=
  let hit : Option (ℚ × ExitReason) :=
    if posType = 1 then
      if lo ≤ stopPrice then
        some (stopPrice, if trailCount > 0 then .trailStop else .stop)
      else none
    else
      if hi ≥ stopPrice then
        some (stopPrice, if trailCount > 0 then .trailStop else .stop)
      else none
  match hit with
  | some e => some e
  | none => if maxHold ≤ barsHeld then some (cl, .time) else none

/-- V2 P&L on close: direction-signed move times point value minus
commission. -/
def v2ClosePnl (p : V2Params) (posType : ℤ) (entryPrice exitPrice : ℚ) : ℚ :=
  (if posType = 1 then (exitPrice - entryPrice) * p.pointValue
   else (entryPrice - exitPrice) * p.pointValue) - p.commission

/-- Entry side of a `backtest_v2` iteration (circuit breakers → RTH filter
→ signal pickup on the current bar → stop-order placement replacing any
existing pending order).  Reached both with and without a live pending
order, exactly as the source falls through after the expiration/fill
check. -/
def v2EntryBlock (d : MarketData) (sig : V2Signals) (p : V2Params) (i : ℕ)
    (s : V2BtState) : V2BtState × Option V2Trade :=
  if s.dailyPnl ≤ p.maxDailyLoss then (s, none)
  else if p.maxConsecLosses ≤ s.consecLosses then (s, none)
  else if s.inPosition then (s, none)
  else
    let t := d.timeF.getD i 0
    if ¬(p.rthStart ≤ t ∧ t < p.rthEnd) then (s, none)
    else if sig.signal.getD i 0 = 0 then (s, none)
    else
      match sig.entryPrice.getD i none, sig.stopPrice.getD i none with
      | some entryP, some stopP =>
        ({ s with
            hasPending := true
            pendingDir := sig.signal.getD i 0
            pendingEntryPrice := entryP
            pendingStopPrice := stopP
            pendingSignalBar := i
            pendingPlacedBar := i
            pendingPattern := sig.sigPattern.getD i .noSig
            pendingTrend := sig.trend.getD i 0
            totalSignals := s.totalSignals + 1 }, none)
      | _, _ => (s, none)

/-- Body of one `backtest_v2` loop iteration after the day rollover:
trailing update and exits while in position; else pending-order expiration
(`placement bar + timeout < current bar ⇒ drop`, checked before the fill
test) and stop-order fill with a same-bar stop check; else (or after a drop
or a no-fill) the entry block. -/
def v2StepCore (d : MarketData) (sig : V2Signals) (p : V2Params) (i : ℕ)
    (s : V2BtState) : V2BtState × Option V2Trade :=
  if s.inPosition then
    let upd := trailUpdate d p.trailBufferAtr p.useBreakeven i s.posType
      s.entryPrice s.stopPricePos s.beMoved s.trailCount
    let s1 := { s with
        stopPricePos := upd.1
        beMoved := upd.2.1
        trailCount := upd.2.2 }
    let barsHeld := i - s1.entryBar
    match v2ExitDecision s1.trailCount s1.posType s1.stopPricePos p.maxHold
        barsHeld (d.highs.getD i 0) (d.lows.getD i 0) (d.closes.getD i 0) with
    | some ex =>
      let pnl := v2ClosePnl p s1.posType s1.entryPrice ex.1
      let tr : V2Trade :=
        { signalBar := s1.tradeSignalBar, entryBar := s1.entryBar, exitBar := i
          direction := s1.posType, sigPattern := s1.tradePattern
          trendState := s1.tradeTrend, entryPrice := s1.entryPrice
          exitPrice := ex.1, stop := s1.initialStop
          finalStop := s1.stopPricePos, pnl := pnl, barsHeld := barsHeld
          reason := ex.2, trailCount := s1.trailCount
          date := d.dates.getD i 0 }
      ({ s1 with
          inPosition := false
          dailyPnl := s1.dailyPnl + pnl
          consecLosses :=
            if pnl > 0 then 0
            else if pnl < 0 then s1.consecLosses + 1
            else 0 }, some tr)
    | none => (s1, none)
  else if s.hasPending then
    if p.orderTimeout < i - s.pendingPlacedBar then
      -- expired: drop the order and fall through to the entry block
      v2EntryBlock d sig p i { s with hasPending := false }
    else
      let filled :=
        if s.pendingDir = 1 then d.highs.getD i 0 ≥ s.pendingEntryPrice
        else d.lows.getD i 0 ≤ s.pendingEntryPrice
      if filled then
        let fillPrice :=
          s.pendingEntryPrice +
            (if s.pendingDir = 1 then p.slippage else -p.slippage)
        let s1 :=
          { s with
              inPosition := true
              posType := s.pendingDir
              entryBar := i
              entryPrice := fillPrice
              stopPricePos := s.pendingStopPrice
              initialStop := s.pendingStopPrice
              tradeSignalBar := s.pendingSignalBar
              tradePattern := s.pendingPattern
              tradeTrend := s.pendingTrend
              hasPending := false
              beMoved := false
              trailCount := 0
              totalFills := s.totalFills + 1 }
        let sameBar : Option (ℚ × ExitReason) :=
          if s1.posType = 1 then
            if d.lows.getD i 0 ≤ s1.stopPricePos then
              some (s1.stopPricePos, .stop)
            else none
          else
            if d.highs.getD i 0 ≥ s1.stopPricePos then
              some (s1.stopPricePos, .stop)
            else none
        match sameBar with
        | some ex =>
          let pnl := v2ClosePnl p s1.posType s1.entryPrice ex.1
          let tr : V2Trade :=
            { signalBar := s1.tradeSignalBar, entryBar := i, exitBar := i
              direction := s1.posType, sigPattern := s1.tradePattern
              trendState := s1.tradeTrend, entryPrice := s1.entryPrice
              exitPrice := ex.1, stop := s1.initialStop
              finalStop := s1.stopPricePos, pnl := pnl, barsHeld := 0
              reason := ex.2, trailCount := 0, date := d.dates.getD i 0 }
          -- NOTE (faithful to source): no `else` resetting `consec_losses`
          -- on a zero P&L in this same-bar close block
          ({ s1 with
              inPosition := false
              dailyPnl := s1.dailyPnl + pnl
              consecLosses :=
                if pnl > 0 then 0
                else if pnl < 0 then s1.consecLosses + 1
                else s1.consecLosses }, some tr)
        | none => (s1, none)
      else
        -- not expired, not filled: the pending order survives and the
        -- source falls through to the entry block (a new signal replaces it)
        v2EntryBlock d sig p i s
  else v2EntryBlock d sig p i s

/-- One full `backtest_v2` loop iteration at bar `i`. -/
def v2Step (d : MarketData) (sig : V2Signals) (p : V2Params) (i : ℕ)
    (s : V2BtState) : V2BtState × Option V2Trade :=
  v2StepCore d sig p i (v2DayReset d i s)

/-- State of `backtest_v2` before processing bar `i`. -/
def v2StateAt (d : MarketData) (sig : V2Signals) (p : V2Params) :
    ℕ → V2BtState
  | 0 => V2BtState.init
  | i + 1 =>
      if i = 0 then V2BtState.init
      else (v2Step d sig p i (v2StateAt d sig p i)).1

/-- Trade emitted by `backtest_v2` at bar `i`, if any. -/
def v2TradeAt (d : MarketData) (sig : V2Signals) (p : V2Params) (i : ℕ) :
    Option V2Trade :=
  if i = 0 then none else (v2Step d sig p i (v2StateAt d sig p i)).2

/-- `backtest_v2`: the ordered list of closed trades. -/
def backtestV2Run (d : MarketData) (sig : V2Signals) (p : V2Params) :
    List V2Trade :=
  (List.range d.n).filterMap (v2TradeAt d sig p)

/-! ## Specification-side trend classifier (for the trend claim) -/

/-- Whether bar `j` confirms a new swing high (flag set and price carried) —
the `new_sh` condition of the per-bar loops. -/
def newSwingHigh (d : MarketData) (j : ℕ) : Bool :=
  d.swingHigh.getD j false && (d.shPrice.getD j none).isSome

/-- Whether bar `j` confirms a new swing low. -/
def newSwingLow (d : MarketData) (j : ℕ) : Bool :=
  d.swingLow.getD j false && (d.slPrice.getD j none).isSome

/-- The list of confirmed swing-high prices up to and including bar `i`,
newest first — the reference history against which the rolling pair of the
state machine is verified. -/
def swingHighsUpTo (d : MarketData) : ℕ → List ℚ
  | 0 =>
      if newSwingHigh d 0 then [(d.shPrice.getD 0 none).getD 0] else []
  | i + 1 =>
      if newSwingHigh d (i + 1) then
        (d.shPrice.getD (i + 1) none).getD 0 :: swingHighsUpTo d i
      else swingHighsUpTo d i

/-- The list of confirmed swing-low prices up to and including bar `i`,
newest first. -/
def swingLowsUpTo (d : MarketData) : ℕ → List ℚ
  | 0 =>
      if newSwingLow d 0 then [(d.slPrice.getD 0 none).getD 0] else []
  | i + 1 =>
      if newSwingLow d (i + 1) then
        (d.slPrice.getD (i + 1) none).getD 0 :: swingLowsUpTo d i
      else swingLowsUpTo d i

/-- Modelled from the spec's words: UNKNOWN while fewer than two of either
swing type exist; then UP iff newest-high > prior-high AND newest-low >
prior-low; DOWN iff both strictly lower; else RANGE. -/
def specTrendOfHists (shs sls : List ℚ) : ℤ :=
  if shs.length < 2 ∨ sls.length < 2 then TREND_UNKNOWN
  else if shs.getD 0 0 > shs.getD 1 0 ∧ sls.getD 0 0 > sls.getD 1 0 then
    TREND_UP
  else if shs.getD 0 0 < shs.getD 1 0 ∧ sls.getD 0 0 < sls.getD 1 0 then
    TREND_DOWN
  else TREND_RANGE

/-- Modelled from the spec's words: the structure trend with the optional
EMA confirmation applied to the current bar only — UP is demoted to RANGE
when the close is below the EMA, DOWN to RANGE when it is above. -/
def specTrendEma (shs sls : List ℚ) (close ema : ℚ) (useEma : Bool) : ℤ :=
  let t := specTrendOfHists shs sls
  if useEma ∧ t ≠ TREND_UNKNOWN then
    if t = TREND_UP ∧ close < ema then TREND_RANGE
    else if t = TREND_DOWN ∧ close > ema then TREND_RANGE
    else t
  else t

/-! ## Concrete inputs used by witnesses and counterexamples -/

/-- Bars of a clean uptrend that establishes TREND_UP, a trigger higher
high, then three successive confirmed higher swing lows (strength 1,
confirmation bars 8, 10, 12, 14). -/
def upHighs : List ℚ :=
  [19, 18, 18, 20, 19, 19, 19, 22, 21, 21, 21, 21, 21, 21, 21, 21]

def upLows : List ℚ :=
  [11, 10, 13, 13, 13, 12, 16, 16, 16, 13, 16, 14, 16, 15, 16, 16]

def upParams : L1L2Params := { swingStrength := 1, useEmaConfirm := false }

def upData : MarketData :=
  precompute upHighs upHighs upLows upLows (List.replicate 16 9)
    (List.replicate 16 0) 1 14 21

/-- Bars for the fixed backtest scenarios: a same-bar losing stop-out at
bar 2 followed by a same-bar stop-out at bar 4 whose exit price equals the
fill price (P&L exactly zero). -/
def zpOpens : List ℚ := [100, 100, 100, 100, 100]
def zpHighs : List ℚ := [101, 101, 101, 101, 101]
def zpLows : List ℚ := [99, 99, 80, 99, 90]
def zpCloses : List ℚ := [100, 100, 100, 100, 100]

def zpData : MarketData :=
  precompute zpOpens zpHighs zpLows zpCloses (List.replicate 5 9)
    (List.replicate 5 0) 1 1 21

def zpSignals : BtSignals :=
  { signal := [1, 0, 1, 0, 0]
    entryType := [2, 0, 2, 0, 0]
    stopLevel := [some 90, none, some 100, none, none]
    targetLevel := [some 1000, none, some 1000, none, none] }

def zpParams : L1L2Params :=
  { swingStrength := 1, atrPeriod := 1, slippage := 0, commission := 0
    rthStart := 0, rthEnd := 24 }

/-- Same bars with a 24-point contract: the bar-2 loss is −240, breaching
the −200 daily loss limit; later signals the same day must be ignored. -/
def cbParams : L1L2Params :=
  { swingStrength := 1, atrPeriod := 1, slippage := 0, commission := 0
    rthStart := 0, rthEnd := 24, pointValue := 24 }

def cbSignals : BtSignals :=
  { signal := [1, 0, 1, 1, 0]
    entryType := [2, 0, 2, 2, 0]
    stopLevel := [some 90, none, some 100, some 100, none]
    targetLevel := [some 1000, none, some 1000, some 1000, none] }

/-- Bars for the trailing backtest scenario: long entered at 100 with
initial stop 95; a favorable swing low prints 106 (confirmed at bar 5 with
ATR 10, trail buffer 3), an unfavorable swing low prints 98 (confirmed at
bar 7). -/
def trOpens : List ℚ := [100, 100, 100, 100, 100, 100, 100, 100]
def trHighs : List ℚ := [101, 101, 101, 109, 109, 117, 109, 101]
def trLows : List ℚ := [98, 98, 99, 108, 106, 107, 98, 99]
def trCloses : List ℚ := [100, 100, 100, 108, 110, 110, 100, 100]

def trData : MarketData :=
  precompute trOpens trHighs trLows trCloses (List.replicate 8 9)
    (List.replicate 8 0) 1 1 21

def trSignals : BtSignals :=
  { signal := [1, 0, 0, 0, 0, 0, 0, 0]
    entryType := [2, 0, 0, 0, 0, 0, 0, 0]
    stopLevel := [some 95, none, none, none, none, none, none, none]
    targetLevel := [some 1000, none, none, none, none, none, none, none] }

def trParams : TrailParams :=
  { base := { swingStrength := 1, atrPeriod := 1, slippage := 0
              commission := 0, rthStart := 0, rthEnd := 24 }
    trailBufferAtr := 3/10, useBreakeven := true }

/-- Bars and crafted signals for the V2 order-expiration scenario: a buy
stop order at 200 placed at bar 1 with a 3-bar timeout over bars whose
highs never exceed 101. -/
def v2pData : MarketData :=
  precompute (List.replicate 7 100) (List.replicate 7 101)
    (List.replicate 7 99) (List.replicate 7 100) (List.replicate 7 9)
    (List.replicate 7 0) 1 1 21

def v2pSignals : V2Signals :=
  { signal := [0, 1, 0, 0, 0, 0, 0]
    sigPattern := [.noSig, .pullback, .noSig, .noSig, .noSig, .noSig, .noSig]
    entryPrice := [none, some 200, none, none, none, none, none]
    stopPrice := [none, some 90, none, none, none, none, none]
    trend := [0, 2, 0, 0, 0, 0, 0] }

def v2pParams : V2Params :=
  { swingStrength := 1, atrPeriod := 1, rthStart := 0, rthEnd := 24
    orderTimeout := 3, slippage := 0, commission := 0 }

/-- Bars that drive `detect_signals_v2` to a support zone with repeated
touches and two emitted long signals (bars 6 and 11, five bars apart). -/
def srOpens : List ℚ :=
  [1013/10, 1012/10, 1009/10, 10095/100, 10105/100, 1009/10, 1005/10,
   1007/10, 101, 101, 101, 1007/10, 101]

def srHighs : List ℚ :=
  [1015/10, 1014/10, 101, 101, 1012/10, 1012/10, 1014/10, 1015/10,
   1015/10, 1013/10, 1012/10, 1016/10, 1014/10]

def srLows : List ℚ :=
  [101, 1008/10, 100, 1009/10, 1009/10, 1002/10, 1004/10, 1006/10,
   1007/10, 100, 1008/10, 1006/10, 1009/10]

def srCloses : List ℚ :=
  [1012/10, 101, 1005/10, 10095/100, 101, 1006/10, 1013/10, 1012/10,
   1011/10, 1004/10, 101, 1015/10, 101]

def srData : MarketData :=
  precompute srOpens srHighs srLows srCloses (List.replicate 13 9)
    (List.replicate 13 0) 1 1 21

def srParams : V2Params :=
  { swingStrength := 1, atrPeriod := 1, tradeWithTrend := false }

/-! # Theorems -/

/-! ### List access helpers -/

theorem getD_take_eq {α : Type} (l : List α) {m k : ℕ} (h : k < m) (d : α) :
    (l.take m).getD k d = l.getD k d := by
  simp [List.getD, List.getElem?_take, h]

theorem getD_map_range {α : Type} (f : ℕ → α) {n i : ℕ} (h : i < n) (d : α) :
    ((List.range n).map f).getD i d = f i := by
  simp [List.getD, List.getElem?_map, List.getElem?_range, h]

theorem all_congr_list {α : Type} (l : List α) (f g : α → Bool)
    (h : ∀ x ∈ l, f x = g x) : l.all f = l.all g := by
  induction l with
  | nil => rfl
  | cons a t ih =>
    simp only [List.all_cons]
    rw [h a (by simp), ih fun x hx => h x (by simp [hx])]

theorem length_take_of_le {α : Type} {l : List α} {m : ℕ}
    (h : m ≤ l.length) : (l.take m).length = m := by
  rw [List.length_take]; omega

/-! ### Truncation stability of the indicator layer -/

theorem swingHighCand_take (hs : List ℚ) {m j strength : ℕ}
    (hm : m ≤ hs.length) (hj : j + strength < m) :
    swingHighCand (hs.take m) strength j = swingHighCand hs strength j := by
  have hlen : (hs.take m).length = m := length_take_of_le hm
  have hjm : j < m := by omega
  unfold swingHighCand
  rw [hlen]
  have h1 : decide (j + strength < m) = decide (j + strength < hs.length) := by
    simp only [decide_eq_true_eq, hj, lt_of_lt_of_le hj hm]
  rw [h1]
  congr 1
  apply all_congr_list
  intro s hs'
  have hsle : s + 1 ≤ strength := by
    simp only [List.mem_range] at hs'; omega
  rw [getD_take_eq hs (show j - (s + 1) < m by omega) 0,
    getD_take_eq hs (show j + (s + 1) < m by omega) 0,
    getD_take_eq hs hjm 0]

theorem swingLowCand_take (ls : List ℚ) {m j strength : ℕ}
    (hm : m ≤ ls.length) (hj : j + strength < m) :
    swingLowCand (ls.take m) strength j = swingLowCand ls strength j := by
  have hlen : (ls.take m).length = m := length_take_of_le hm
  have hjm : j < m := by omega
  unfold swingLowCand
  rw [hlen]
  have h1 : decide (j + strength < m) = decide (j + strength < ls.length) := by
    simp only [decide_eq_true_eq, hj, lt_of_lt_of_le hj hm]
  rw [h1]
  congr 1
  apply all_congr_list
  intro s hs'
  have hsle : s + 1 ≤ strength := by
    simp only [List.mem_range] at hs'; omega
  rw [getD_take_eq ls (show j - (s + 1) < m by omega) 0,
    getD_take_eq ls (show j + (s + 1) < m by omega) 0,
    getD_take_eq ls hjm 0]

theorem detectSwingHigh_take (hs : List ℚ) {strength m i : ℕ}
    (hm : m ≤ hs.length) (hi : i < m) :
    (detectSwingHigh (hs.take m) strength).getD i false =
      (detectSwingHigh hs strength).getD i false := by
  have hlen : (hs.take m).length = m := length_take_of_le hm
  unfold detectSwingHigh
  rw [hlen, getD_map_range _ hi, getD_map_range _ (lt_of_lt_of_le hi hm)]
  by_cases h : strength ≤ i
  · rw [swingHighCand_take hs hm (show i - strength + strength < m by omega)]
  · simp [h]

theorem detectSwingLow_take (ls : List ℚ) {strength m i : ℕ}
    (hm : m ≤ ls.length) (hi : i < m) :
    (detectSwingLow (ls.take m) strength).getD i false =
      (detectSwingLow ls strength).getD i false := by
  have hlen : (ls.take m).length = m := length_take_of_le hm
  unfold detectSwingLow
  rw [hlen, getD_map_range _ hi, getD_map_range _ (lt_of_lt_of_le hi hm)]
  by_cases h : strength ≤ i
  · rw [swingLowCand_take ls hm (show i - strength + strength < m by omega)]
  · simp [h]

theorem swingHighPriceArr_take (hs : List ℚ) {strength m i : ℕ}
    (hm : m ≤ hs.length) (hi : i < m) :
    (swingHighPriceArr (hs.take m) (detectSwingHigh (hs.take m) strength)
        strength).getD i none =
      (swingHighPriceArr hs (detectSwingHigh hs strength) strength).getD i
        none := by
  have hlen : (hs.take m).length = m := length_take_of_le hm
  unfold swingHighPriceArr
  rw [hlen, getD_map_range _ hi, getD_map_range _ (lt_of_lt_of_le hi hm)]
  rw [detectSwingHigh_take hs hm hi,
    getD_take_eq hs (show i - strength < m by omega) 0]

theorem swingLowPriceArr_take (ls : List ℚ) {strength m i : ℕ}
    (hm : m ≤ ls.length) (hi : i < m) :
    (swingLowPriceArr (ls.take m) (detectSwingLow (ls.take m) strength)
        strength).getD i none =
      (swingLowPriceArr ls (detectSwingLow ls strength) strength).getD i
        none := by
  have hlen : (ls.take m).length = m := length_take_of_le hm
  unfold swingLowPriceArr
  rw [hlen, getD_map_range _ hi, getD_map_range _ (lt_of_lt_of_le hi hm)]
  rw [detectSwingLow_take ls hm hi,
    getD_take_eq ls (show i - strength < m by omega) 0]

theorem trueRange_take (hs ls cs : List ℚ) {m i : ℕ} (hi : i < m) :
    trueRange (hs.take m) (ls.take m) (cs.take m) i = trueRange hs ls cs i := by
  unfold trueRange
  by_cases h : i = 0
  · rw [if_pos h, if_pos h, getD_take_eq hs (show 0 < m by omega) 0,
      getD_take_eq ls (show 0 < m by omega) 0]
  · rw [if_neg h, if_neg h, getD_take_eq hs hi 0, getD_take_eq ls hi 0,
      getD_take_eq cs (show i - 1 < m by omega) 0]

theorem atrAt_take (hs ls cs : List ℚ) {period m i : ℕ} (hi : i < m) :
    atrAt (hs.take m) (ls.take m) (cs.take m) period i =
      atrAt hs ls cs period i := by
  unfold atrAt
  by_cases h : period ≤ i + 1
  · simp only [h, if_true]
    have hmap : List.map
        (fun k => trueRange (hs.take m) (ls.take m) (cs.take m) (i - k))
        (List.range period) =
        List.map (fun k => trueRange hs ls cs (i - k)) (List.range period) :=
      List.map_congr_left fun k _ =>
        trueRange_take hs ls cs (show i - k < m by omega)
    rw [hmap]
  · simp [h]

theorem emaAt_take (cs : List ℚ) {period m : ℕ} :
    ∀ i, i < m → emaAt (cs.take m) period i = emaAt cs period i := by
  intro i
  induction i with
  | zero => intro h; unfold emaAt; rw [getD_take_eq cs h 0]
  | succ k ih =>
    intro h
    unfold emaAt
    rw [getD_take_eq cs h 0, ih (by omega)]

/-! ### Truncation stability through the trend/entry state machine -/

/-- Pointwise agreement below `m` of the per-bar arrays consumed by
`detect_trend_and_entries`. -/
def agreeBelow (d₁ d₂ : MarketData) (m : ℕ) : Prop :=
  ∀ i, i < m →
    d₁.swingHigh.getD i false = d₂.swingHigh.getD i false ∧
    d₁.swingLow.getD i false = d₂.swingLow.getD i false ∧
    d₁.shPrice.getD i none = d₂.shPrice.getD i none ∧
    d₁.slPrice.getD i none = d₂.slPrice.getD i none ∧
    d₁.closes.getD i 0 = d₂.closes.getD i 0 ∧
    d₁.ema.getD i 0 = d₂.ema.getD i 0 ∧
    d₁.atr.getD i none = d₂.atr.getD i none

theorem detectStep_congr (d₁ d₂ : MarketData) (p : L1L2Params) (i : ℕ)
    (h1 : d₁.swingHigh.getD i false = d₂.swingHigh.getD i false)
    (h2 : d₁.swingLow.getD i false = d₂.swingLow.getD i false)
    (h3 : d₁.shPrice.getD i none = d₂.shPrice.getD i none)
    (h4 : d₁.slPrice.getD i none = d₂.slPrice.getD i none)
    (h5 : d₁.closes.getD i 0 = d₂.closes.getD i 0)
    (h6 : d₁.ema.getD i 0 = d₂.ema.getD i 0)
    (h7 : d₁.atr.getD i none = d₂.atr.getD i none)
    (s : DetectState) :
    detectStep d₁ p i s = detectStep d₂ p i s := by
  unfold detectStep
  rw [h1, h2, h3, h4, h5, h6, h7]

theorem detectStateAt_congr {d₁ d₂ : MarketData} (p : L1L2Params) {m : ℕ}
    (h : agreeBelow d₁ d₂ m) :
    ∀ i, i ≤ m → detectStateAt d₁ p i = detectStateAt d₂ p i := by
  intro i
  induction i with
  | zero => intro _; rfl
  | succ k ih =>
    intro hk
    have hkm : k < m := by omega
    have hc := h k hkm
    unfold detectStateAt
    rw [ih (by omega),
      detectStep_congr d₁ d₂ p k hc.1 hc.2.1 hc.2.2.1 hc.2.2.2.1 hc.2.2.2.2.1
        hc.2.2.2.2.2.1 hc.2.2.2.2.2.2]

theorem detectBar_congr {d₁ d₂ : MarketData} (p : L1L2Params) {m i : ℕ}
    (h : agreeBelow d₁ d₂ m) (hi : i < m) :
    detectBar d₁ p i = detectBar d₂ p i := by
  have hc := h i hi
  unfold detectBar
  rw [detectStateAt_congr p h i (by omega),
    detectStep_congr d₁ d₂ p i hc.1 hc.2.1 hc.2.2.1 hc.2.2.2.1 hc.2.2.2.2.1
      hc.2.2.2.2.2.1 hc.2.2.2.2.2.2]

/-- Agreement below `m` between `precompute` on the `m`-bar prefix of a
series and `precompute` on the full series. -/
theorem precompute_take_agree (opens highs lows closes timeF : List ℚ)
    (dates : List ℤ) (strength atrPeriod emaPeriod m : ℕ)
    (hlen1 : lows.length = highs.length)
    (hlen2 : closes.length = highs.length) (hm : m ≤ highs.length) :
    agreeBelow
      (precompute (opens.take m) (highs.take m) (lows.take m)
        (closes.take m) (timeF.take m) (dates.take m) strength atrPeriod
        emaPeriod)
      (precompute opens highs lows closes timeF dates strength atrPeriod
        emaPeriod) m := by
  intro i hi
  have hin : i < highs.length := lt_of_lt_of_le hi hm
  have hlen : (highs.take m).length = m := length_take_of_le hm
  refine ⟨?_, ?_, ?_, ?_, ?_, ?_, ?_⟩
  · exact detectSwingHigh_take highs hm hi
  · exact detectSwingLow_take lows (by omega) hi
  · exact swingHighPriceArr_take highs hm hi
  · exact swingLowPriceArr_take lows (by omega) hi
  · exact getD_take_eq closes hi 0
  · show ((List.range (highs.take m).length).map
        (emaAt (closes.take m) emaPeriod)).getD i 0 =
      ((List.range highs.length).map (emaAt closes emaPeriod)).getD i 0
    rw [hlen, getD_map_range _ hi, getD_map_range _ hin,
      emaAt_take closes i hi]
  · show ((List.range (highs.take m).length).map
        (atrAt (highs.take m) (lows.take m) (closes.take m) atrPeriod)).getD
        i none =
      ((List.range highs.length).map
        (atrAt highs lows closes atrPeriod)).getD i none
    rw [hlen, getD_map_range _ hi, getD_map_range _ hin,
      atrAt_take highs lows closes hi]

/-- C1: No-lookahead swing confirmation — the confirmed swing flag and
swing price at bar `i` are unchanged when the series is truncated at bar
`i` (they depend only on bars `≤ i`), and consequently the pipeline
(`precompute_indicators` + `detect_trend_and_entries`) run on the series
truncated at bar `i` produces the identical signal row at every index `j`
with `j ≤ i - strength` (here `j + strength ≤ i`). -/
theorem c1_no_lookahead (opens highs lows closes timeF : List ℚ)
    (dates : List ℤ) (p : L1L2Params) (i j : ℕ)
    (hlen1 : lows.length = highs.length)
    (hlen2 : closes.length = highs.length)
    (hi : i < highs.length) (hj : j + p.swingStrength ≤ i) :
    ((detectSwingHigh (highs.take (i + 1)) p.swingStrength).getD i false =
      (detectSwingHigh highs p.swingStrength).getD i false) ∧
    ((detectSwingLow (lows.take (i + 1)) p.swingStrength).getD i false =
      (detectSwingLow lows p.swingStrength).getD i false) ∧
    ((swingHighPriceArr (highs.take (i + 1))
        (detectSwingHigh (highs.take (i + 1)) p.swingStrength)
        p.swingStrength).getD i none =
      (swingHighPriceArr highs (detectSwingHigh highs p.swingStrength)
        p.swingStrength).getD i none) ∧
    ((swingLowPriceArr (lows.take (i + 1))
        (detectSwingLow (lows.take (i + 1)) p.swingStrength)
        p.swingStrength).getD i none =
      (swingLowPriceArr lows (detectSwingLow lows p.swingStrength)
        p.swingStrength).getD i none) ∧
    (detectBar
        (precompute (opens.take (i + 1)) (highs.take (i + 1))
          (lows.take (i + 1)) (closes.take (i + 1)) (timeF.take (i + 1))
          (dates.take (i + 1)) p.swingStrength p.atrPeriod p.emaPeriod) p j =
      detectBar
        (precompute opens highs lows closes timeF dates p.swingStrength
          p.atrPeriod p.emaPeriod) p j) := by
  have hm : i + 1 ≤ highs.length := hi
  refine ⟨detectSwingHigh_take highs hm (by omega),
    detectSwingLow_take lows (by omega) (by omega),
    swingHighPriceArr_take highs hm (by omega),
    swingLowPriceArr_take lows (by omega) (by omega), ?_⟩
  exact detectBar_congr p
    (precompute_take_agree opens highs lows closes timeF dates
      p.swingStrength p.atrPeriod p.emaPeriod (i + 1) hlen1 hlen2 hm)
    (by omega)

/-- Witness for `c1_no_lookahead` at the concrete uptrend series, bar
`i = 10`, index `j = 9`. -/
theorem c1_no_lookahead_witness :
    detectBar
        (precompute (upHighs.take 11) (upHighs.take 11) (upLows.take 11)
          (upLows.take 11) ((List.replicate 16 (9 : ℚ)).take 11)
          ((List.replicate 16 (0 : ℤ)).take 11) upParams.swingStrength
          upParams.atrPeriod upParams.emaPeriod) upParams 9 =
      detectBar upData upParams 9 :=
  (c1_no_lookahead upHighs upHighs upLows upLows (List.replicate 16 9)
    (List.replicate 16 0) upParams 10 9 rfl rfl (by decide)
    (by decide)).2.2.2.2

/-! ### The rolling swing pair tracks the confirmed-swing history -/

theorem option_eq_some_getD {o : Option ℚ} (h : o.isSome = true) (d : ℚ) :
    o = some (o.getD d) := by
  cases o with
  | none => simp at h
  | some x => rfl

theorem detectStep_pair (d : MarketData) (p : L1L2Params) (i : ℕ)
    (s : DetectState) :
    (detectStep d p i s).1.sh0 =
      (if newSwingHigh d i then d.shPrice.getD i none else s.sh0) ∧
    (detectStep d p i s).1.sh1 =
      (if newSwingHigh d i then s.sh0 else s.sh1) ∧
    (detectStep d p i s).1.sl0 =
      (if newSwingLow d i then d.slPrice.getD i none else s.sl0) ∧
    (detectStep d p i s).1.sl1 =
      (if newSwingLow d i then s.sl0 else s.sl1) := by
  unfold detectStep newSwingHigh newSwingLow
  cases hsh : d.swingHigh.getD i false && (d.shPrice.getD i none).isSome <;>
    cases hsl : d.swingLow.getD i false && (d.slPrice.getD i none).isSome <;>
      simp [hsh, hsl]

theorem detect_hist_pair (d : MarketData) (p : L1L2Params) :
    ∀ i, (detectStateAt d p (i + 1)).sh0 = (swingHighsUpTo d i).get? 0 ∧
      (detectStateAt d p (i + 1)).sh1 = (swingHighsUpTo d i).get? 1 ∧
      (detectStateAt d p (i + 1)).sl0 = (swingLowsUpTo d i).get? 0 ∧
      (detectStateAt d p (i + 1)).sl1 = (swingLowsUpTo d i).get? 1 := by
  intro i
  induction i with
  | zero =>
    have hrw : detectStateAt d p (0 + 1) =
        (detectStep d p 0 (detectStateAt d p 0)).1 := rfl
    have hstep := detectStep_pair d p 0 (detectStateAt d p 0)
    have hinit : detectStateAt d p 0 = DetectState.init := rfl
    unfold swingHighsUpTo swingLowsUpTo
    rw [hrw, hstep.1, hstep.2.1, hstep.2.2.1, hstep.2.2.2, hinit]
    refine ⟨?_, ?_, ?_, ?_⟩
    · by_cases h : newSwingHigh d 0 = true
      · have hsome : (d.shPrice.getD 0 none).isSome = true := by
          unfold newSwingHigh at h
          exact ((Bool.and_eq_true _ _).mp h).2
        simp only [h, if_true]
        simpa using option_eq_some_getD hsome 0
      · simp only [Bool.not_eq_true] at h
        simp [h, DetectState.init]
    · by_cases h : newSwingHigh d 0 = true
      · simp [h, DetectState.init]
      · simp only [Bool.not_eq_true] at h
        simp [h, DetectState.init]
    · by_cases h : newSwingLow d 0 = true
      · have hsome : (d.slPrice.getD 0 none).isSome = true := by
          unfold newSwingLow at h
          exact ((Bool.and_eq_true _ _).mp h).2
        simp only [h, if_true]
        simpa using option_eq_some_getD hsome 0
      · simp only [Bool.not_eq_true] at h
        simp [h, DetectState.init]
    · by_cases h : newSwingLow d 0 = true
      · simp [h, DetectState.init]
      · simp only [Bool.not_eq_true] at h
        simp [h, DetectState.init]
  | succ k ih =>
    have hrw : detectStateAt d p (k + 1 + 1) =
        (detectStep d p (k + 1) (detectStateAt d p (k + 1))).1 := rfl
    have hstep := detectStep_pair d p (k + 1) (detectStateAt d p (k + 1))
    unfold swingHighsUpTo swingLowsUpTo
    rw [hrw, hstep.1, hstep.2.1, hstep.2.2.1, hstep.2.2.2]
    refine ⟨?_, ?_, ?_, ?_⟩
    · by_cases h : newSwingHigh d (k + 1) = true
      · have hsome : (d.shPrice.getD (k + 1) none).isSome = true := by
          unfold newSwingHigh at h
          exact ((Bool.and_eq_true _ _).mp h).2
        simp only [h, if_true]
        simpa using option_eq_some_getD hsome 0
      · simp only [Bool.not_eq_true] at h
        simp only [h, Bool.false_eq_true, if_false]
        exact ih.1
    · by_cases h : newSwingHigh d (k + 1) = true
      · simp only [h, if_true]
        simpa using ih.1
      · simp only [Bool.not_eq_true] at h
        simp only [h, Bool.false_eq_true, if_false]
        exact ih.2.1
    · by_cases h : newSwingLow d (k + 1) = true
      · have hsome : (d.slPrice.getD (k + 1) none).isSome = true := by
          unfold newSwingLow at h
          exact ((Bool.and_eq_true _ _).mp h).2
        simp only [h, if_true]
        simpa using option_eq_some_getD hsome 0
      · simp only [Bool.not_eq_true] at h
        simp only [h, Bool.false_eq_true, if_false]
        exact ih.2.2.1
    · by_cases h : newSwingLow d (k + 1) = true
      · simp only [h, if_true]
        simpa using ih.2.2.1
      · simp only [Bool.not_eq_true] at h
        simp only [h, Bool.false_eq_true, if_false]
        exact ih.2.2.2

theorem detectBar_trend_eq (d : MarketData) (p : L1L2Params) (i : ℕ) :
    (detectBar d p i).trend =
      (let u := detectStateAt d p (i + 1)
       let t0 : ℤ :=
         if u.sh1 = none ∨ u.sl1 = none then TREND_UNKNOWN
         else if oGt u.sh0 u.sh1 && oGt u.sl0 u.sl1 then TREND_UP
         else if oLt u.sh0 u.sh1 && oLt u.sl0 u.sl1 then TREND_DOWN
         else TREND_RANGE
       if p.useEmaConfirm ∧ t0 ≠ TREND_UNKNOWN then
         if t0 = TREND_UP ∧ d.closes.getD i 0 < d.ema.getD i 0 then
           TREND_RANGE
         else if t0 = TREND_DOWN ∧ d.closes.getD i 0 > d.ema.getD i 0 then
           TREND_RANGE
         else t0
       else t0) := by
  show (detectStep d p i (detectStateAt d p i)).2.trend = _
  have hrw : detectStateAt d p (i + 1) =
      (detectStep d p i (detectStateAt d p i)).1 := rfl
  rw [hrw]
  rfl

/-- C2: Trend classification — on every bar the recorded trend label equals
the specification classifier applied to the rolling histories of confirmed
swing highs/lows after updating them with bar `i`: UNKNOWN while fewer than
two of either swing type exist, UP iff newest-high > prior-high and
newest-low > prior-low, DOWN iff both strictly lower, RANGE otherwise, with
the optional EMA demotion applied on the current bar only. -/
theorem c2_trend_classification (d : MarketData) (p : L1L2Params) (i : ℕ) :
    (detectBar d p i).trend =
      specTrendEma (swingHighsUpTo d i) (swingLowsUpTo d i)
        (d.closes.getD i 0) (d.ema.getD i 0) p.useEmaConfirm := by
  rw [detectBar_trend_eq]
  obtain ⟨h0, h1, h2, h3⟩ := detect_hist_pair d p i
  unfold specTrendEma specTrendOfHists
  dsimp only
  rw [h0, h1, h2, h3]
  have heq : (if (swingHighsUpTo d i).get? 1 = none ∨
        (swingLowsUpTo d i).get? 1 = none then TREND_UNKNOWN
      else if oGt ((swingHighsUpTo d i).get? 0) ((swingHighsUpTo d i).get? 1)
          && oGt ((swingLowsUpTo d i).get? 0) ((swingLowsUpTo d i).get? 1)
        then TREND_UP
      else if oLt ((swingHighsUpTo d i).get? 0) ((swingHighsUpTo d i).get? 1)
          && oLt ((swingLowsUpTo d i).get? 0) ((swingLowsUpTo d i).get? 1)
        then TREND_DOWN
      else TREND_RANGE) =
      (if (swingHighsUpTo d i).length < 2 ∨ (swingLowsUpTo d i).length < 2
        then TREND_UNKNOWN
      else if (swingHighsUpTo d i).getD 0 0 > (swingHighsUpTo d i).getD 1 0 ∧
          (swingLowsUpTo d i).getD 0 0 > (swingLowsUpTo d i).getD 1 0
        then TREND_UP
      else if (swingHighsUpTo d i).getD 0 0 < (swingHighsUpTo d i).getD 1 0 ∧
          (swingLowsUpTo d i).getD 0 0 < (swingLowsUpTo d i).getD 1 0
        then TREND_DOWN
      else TREND_RANGE) := by
    set shs := swingHighsUpTo d i with hshs
    set sls := swingLowsUpTo d i with hsls
    by_cases hlen : shs.length < 2 ∨ sls.length < 2
    · have hnone : shs.get? 1 = none ∨ sls.get? 1 = none := by
        rcases hlen with h | h
        · exact Or.inl (List.get?_eq_none.mpr (by omega))
        · exact Or.inr (List.get?_eq_none.mpr (by omega))
      rw [if_pos hnone, if_pos hlen]
    · push_neg at hlen
      have hsh2 : 2 ≤ shs.length := hlen.1
      have hsl2 : 2 ≤ sls.length := hlen.2
      have e0 : shs.get? 0 = some (shs.getD 0 0) := by
        rw [List.getD_eq_getD_get?]
        cases hx : shs.get? 0 with
        | none => exact absurd (List.get?_eq_none.mp hx) (by omega)
        | some v => rfl
      have e1 : shs.get? 1 = some (shs.getD 1 0) := by
        rw [List.getD_eq_getD_get?]
        cases hx : shs.get? 1 with
        | none => exact absurd (List.get?_eq_none.mp hx) (by omega)
        | some v => rfl
      have f0 : sls.get? 0 = some (sls.getD 0 0) := by
        rw [List.getD_eq_getD_get?]
        cases hx : sls.get? 0 with
        | none => exact absurd (List.get?_eq_none.mp hx) (by omega)
        | some v => rfl
      have f1 : sls.get? 1 = some (sls.getD 1 0) := by
        rw [List.getD_eq_getD_get?]
        cases hx : sls.get? 1 with
        | none => exact absurd (List.get?_eq_none.mp hx) (by omega)
        | some v => rfl
      have hnotnone : ¬(shs.get? 1 = none ∨ sls.get? 1 = none) := by
        rw [e1, f1]; simp
      rw [if_neg hnotnone, if_neg (by omega : ¬(shs.length < 2 ∨ sls.length < 2))]
      rw [e0, e1, f0, f1]
      unfold oGt oLt
      by_cases hup : shs.getD 0 0 > shs.getD 1 0 ∧ sls.getD 0 0 > sls.getD 1 0
      · simp [hup.1, hup.2]
      · by_cases hdn : shs.getD 0 0 < shs.getD 1 0 ∧ sls.getD 0 0 < sls.getD 1 0
        · have : ¬(shs.getD 0 0 > shs.getD 1 0 ∧ sls.getD 0 0 > sls.getD 1 0) := hup
          simp only [hdn.1, hdn.2, decide_true_eq_true]
          simp [hup, hdn]
        · simp [hup, hdn]
  simp only [heq]

/-! ### Pullback-counter characterization -/

theorem emaDemote_up {p : L1L2Params} {t : ℤ} {close ema : ℚ}
    (h : emaDemote p t close ema = TREND_UP) : t = TREND_UP := by
  unfold emaDemote at h
  split_ifs at h <;> first
    | exact h
    | exact absurd h (by decide)

theorem emaDemote_down {p : L1L2Params} {t : ℤ} {close ema : ℚ}
    (h : emaDemote p t close ema = TREND_DOWN) : t = TREND_DOWN := by
  unfold emaDemote at h
  split_ifs at h <;> first
    | exact h
    | exact absurd h (by decide)

theorem classifyTrend_up {sh0 sh1 sl0 sl1 : Option ℚ}
    (h : classifyTrend sh0 sh1 sl0 sl1 = TREND_UP) :
    oGt sh0 sh1 = true ∧ oGt sl0 sl1 = true := by
  unfold classifyTrend at h
  split_ifs at h with h1 h2 h3
  · exact absurd h (by decide)
  · exact Bool.and_eq_true _ _ |>.mp h2
  · exact absurd h (by decide)
  · exact absurd h (by decide)

theorem classifyTrend_down {sh0 sh1 sl0 sl1 : Option ℚ}
    (h : classifyTrend sh0 sh1 sl0 sl1 = TREND_DOWN) :
    oLt sh0 sh1 = true ∧ oLt sl0 sl1 = true := by
  unfold classifyTrend at h
  split_ifs at h with h1 h2 h3
  · exact absurd h (by decide)
  · exact absurd h (by decide)
  · exact Bool.and_eq_true _ _ |>.mp h3
  · exact absurd h (by decide)

theorem longSideUpdate_notUp (p : L1L2Params) {t : ℤ} (nh nl : Bool)
    (sh0 sh1 sl0 slp atrI : Option ℚ) (c : ℤ) (tg rf : Option ℚ)
    (h : t ≠ TREND_UP) :
    longSideUpdate p t nh nl sh0 sh1 sl0 slp atrI c tg rf =
      (0, tg, rf, none) := by
  unfold longSideUpdate
  rw [if_neg h]

theorem shortSideUpdate_notDown (p : L1L2Params) {t : ℤ} (nh nl : Bool)
    (sh0 sl0 sl1 shp atrI : Option ℚ) (c : ℤ) (tg rf : Option ℚ)
    (h : t ≠ TREND_DOWN) :
    shortSideUpdate p t nh nl sh0 sl0 sl1 shp atrI c tg rf =
      (0, tg, rf, none) := by
  unfold shortSideUpdate
  rw [if_neg h]

theorem longSideUpdate_up (p : L1L2Params) (nh nl : Bool)
    (sh0 sh1 sl0 slp atrI : Option ℚ) (c : ℤ) (tg rf : Option ℚ)
    (hGt : nh = true → oGt sh0 sh1 = true) :
    longSideUpdate p TREND_UP nh nl sh0 sh1 sl0 slp atrI c tg rf =
      (let c0 : ℤ := if nh = true then 0 else c
       let tg0 := if nh = true then sh0 else tg
       let rf0 := if nh = true then sl0 else rf
       let lv := setLevels p 1 (slp.getD 0) tg0 rf0 atrI
       if nl = true ∧ 0 ≤ c0 then
         if c0 + 1 = 1 ∧ p.trackFirstEntries = true then
           (c0 + 1, tg0, rf0, some (1, lv.1, lv.2))
         else if c0 + 1 = 2 then (-1, tg0, rf0, some (2, lv.1, lv.2))
         else (c0 + 1, tg0, rf0, none)
       else (c0, tg0, rf0, none)) := by
  unfold longSideUpdate
  rw [if_pos rfl]
  cases nh with
  | true =>
    rw [hGt rfl]
    dsimp only
    cases nl <;> simp
  | false =>
    dsimp only
    cases nl <;> simp

theorem shortSideUpdate_down (p : L1L2Params) (nh nl : Bool)
    (sh0 sl0 sl1 shp atrI : Option ℚ) (c : ℤ) (tg rf : Option ℚ)
    (hLt : nl = true → oLt sl0 sl1 = true) :
    shortSideUpdate p TREND_DOWN nh nl sh0 sl0 sl1 shp atrI c tg rf =
      (let c0 : ℤ := if nl = true then 0 else c
       let tg0 := if nl = true then sl0 else tg
       let rf0 := if nl = true then sh0 else rf
       let lv := setLevels p (-1) (shp.getD 0) tg0 rf0 atrI
       if nh = true ∧ 0 ≤ c0 then
         if c0 + 1 = 1 ∧ p.trackFirstEntries = true then
           (c0 + 1, tg0, rf0, some (1, lv.1, lv.2))
         else if c0 + 1 = 2 then (-1, tg0, rf0, some (2, lv.1, lv.2))
         else (c0 + 1, tg0, rf0, none)
       else (c0, tg0, rf0, none)) := by
  unfold shortSideUpdate
  rw [if_pos rfl]
  cases nl with
  | true =>
    rw [hLt rfl]
    dsimp only
    cases nh <;> simp
  | false =>
    dsimp only
    cases nh <;> simp

theorem detectStep_trend (d : MarketData) (p : L1L2Params) (i : ℕ)
    (s : DetectState) :
    (detectStep d p i s).2.trend =
      emaDemote p
        (classifyTrend (detectStep d p i s).1.sh0 (detectStep d p i s).1.sh1
          (detectStep d p i s).1.sl0 (detectStep d p i s).1.sl1)
        (d.closes.getD i 0) (d.ema.getD i 0) := rfl

theorem detectStep_longCount (d : MarketData) (p : L1L2Params) (i : ℕ)
    (s : DetectState) :
    (detectStep d p i s).1.longCount =
      (longSideUpdate p (detectStep d p i s).2.trend (newSwingHigh d i)
        (newSwingLow d i) (detectStep d p i s).1.sh0
        (detectStep d p i s).1.sh1 (detectStep d p i s).1.sl0
        (d.slPrice.getD i none) (d.atr.getD i none) s.longCount s.longTrig
        s.longRef).1 := rfl

theorem detectStep_shortCount (d : MarketData) (p : L1L2Params) (i : ℕ)
    (s : DetectState) :
    (detectStep d p i s).1.shortCount =
      (shortSideUpdate p (detectStep d p i s).2.trend (newSwingHigh d i)
        (newSwingLow d i) (detectStep d p i s).1.sh0
        (detectStep d p i s).1.sl0 (detectStep d p i s).1.sl1
        (d.shPrice.getD i none) (d.atr.getD i none) s.shortCount s.shortTrig
        s.shortRef).1 := rfl

theorem detectStep_emission (d : MarketData) (p : L1L2Params) (i : ℕ)
    (s : DetectState) :
    ((detectStep d p i s).2.signal, (detectStep d p i s).2.entryType) =
      (let eS := (shortSideUpdate p (detectStep d p i s).2.trend
          (newSwingHigh d i) (newSwingLow d i) (detectStep d p i s).1.sh0
          (detectStep d p i s).1.sl0 (detectStep d p i s).1.sl1
          (d.shPrice.getD i none) (d.atr.getD i none) s.shortCount
          s.shortTrig s.shortRef).2.2.2
       let eL := (longSideUpdate p (detectStep d p i s).2.trend
          (newSwingHigh d i) (newSwingLow d i) (detectStep d p i s).1.sh0
          (detectStep d p i s).1.sh1 (detectStep d p i s).1.sl0
          (d.slPrice.getD i none) (d.atr.getD i none) s.longCount
          s.longTrig s.longRef).2.2.2
       ((emittedOf eS eL).1, (emittedOf eS eL).2.1)) := rfl

theorem detect_longCount_notUp (d : MarketData) (p : L1L2Params) (i : ℕ)
    (s : DetectState) (h : (detectStep d p i s).2.trend ≠ TREND_UP) :
    (detectStep d p i s).1.longCount = 0 := by
  rw [detectStep_longCount, longSideUpdate_notUp p _ _ _ _ _ _ _ _ _ _ h]

theorem detect_shortCount_notDown (d : MarketData) (p : L1L2Params) (i : ℕ)
    (s : DetectState) (h : (detectStep d p i s).2.trend ≠ TREND_DOWN) :
    (detectStep d p i s).1.shortCount = 0 := by
  rw [detectStep_shortCount, shortSideUpdate_notDown p _ _ _ _ _ _ _ _ _ _ h]

theorem detect_up_hh (d : MarketData) (p : L1L2Params) (i : ℕ)
    (s : DetectState) (h : (detectStep d p i s).2.trend = TREND_UP) :
    oGt (detectStep d p i s).1.sh0 (detectStep d p i s).1.sh1 = true := by
  rw [detectStep_trend] at h
  exact (classifyTrend_up (emaDemote_up h)).1

theorem detect_down_ll (d : MarketData) (p : L1L2Params) (i : ℕ)
    (s : DetectState) (h : (detectStep d p i s).2.trend = TREND_DOWN) :
    oLt (detectStep d p i s).1.sl0 (detectStep d p i s).1.sl1 = true := by
  rw [detectStep_trend] at h
  exact (classifyTrend_down (emaDemote_down h)).2

theorem detect_longCount_up (d : MarketData) (p : L1L2Params) (i : ℕ)
    (s : DetectState) (h : (detectStep d p i s).2.trend = TREND_UP) :
    (detectStep d p i s).1.longCount =
      (let c0 : ℤ := if newSwingHigh d i = true then 0 else s.longCount
       if newSwingLow d i = true ∧ 0 ≤ c0 then
         if c0 = 1 then -1 else c0 + 1
       else c0) := by
  have hGt : newSwingHigh d i = true →
      oGt (detectStep d p i s).1.sh0 (detectStep d p i s).1.sh1 = true :=
    fun _ => detect_up_hh d p i s h
  rw [detectStep_longCount, h,
    longSideUpdate_up p (newSwingHigh d i) (newSwingLow d i) _ _ _ _ _
      s.longCount s.longTrig s.longRef hGt]
  dsimp only
  split_ifs <;> first | rfl | omega

theorem detect_shortCount_down (d : MarketData) (p : L1L2Params) (i : ℕ)
    (s : DetectState) (h : (detectStep d p i s).2.trend = TREND_DOWN) :
    (detectStep d p i s).1.shortCount =
      (let c0 : ℤ := if newSwingLow d i = true then 0 else s.shortCount
       if newSwingHigh d i = true ∧ 0 ≤ c0 then
         if c0 = 1 then -1 else c0 + 1
       else c0) := by
  have hLt : newSwingLow d i = true →
      oLt (detectStep d p i s).1.sl0 (detectStep d p i s).1.sl1 = true :=
    fun _ => detect_down_ll d p i s h
  rw [detectStep_shortCount, h,
    shortSideUpdate_down p (newSwingHigh d i) (newSwingLow d i) _ _ _ _ _
      s.shortCount s.shortTrig s.shortRef hLt]
  dsimp only
  split_ifs <;> first | rfl | omega

theorem detect_emit_long2 (d : MarketData) (p : L1L2Params) (i : ℕ)
    (s : DetectState) :
    ((detectStep d p i s).2.signal = 1 ∧
        (detectStep d p i s).2.entryType = 2) ↔
      ((detectStep d p i s).2.trend = TREND_UP ∧ newSwingLow d i = true ∧
        (if newSwingHigh d i = true then 0 else s.longCount) = 1) := by
  have hp := detectStep_emission d p i s
  dsimp only at hp
  have hsig := congrArg Prod.fst hp
  have hety := congrArg Prod.snd hp
  dsimp only at hsig hety
  by_cases hU : (detectStep d p i s).2.trend = TREND_UP
  · rw [hU] at hsig hety
    rw [shortSideUpdate_notDown p _ _ _ _ _ _ _ _ _ _
      (by decide : TREND_UP ≠ TREND_DOWN)] at hsig hety
    rw [longSideUpdate_up p (newSwingHigh d i) (newSwingLow d i) _ _ _ _ _
      s.longCount s.longTrig s.longRef
      (fun _ => detect_up_hh d p i s hU)] at hsig hety
    dsimp only at hsig hety
    simp only [hU, eq_self_iff_true, true_and]
    set c0 : ℤ := if newSwingHigh d i = true then 0 else s.longCount with hc0
    by_cases hnl : newSwingLow d i = true
    · simp only [hnl, eq_self_iff_true, true_and]
      by_cases hc : (0 : ℤ) ≤ c0
      · rw [if_pos ⟨hnl, hc⟩] at hsig hety
        by_cases h1 : c0 + 1 = 1 ∧ p.trackFirstEntries = true
        · rw [if_pos h1] at hsig hety
          obtain ⟨h1a, _⟩ := h1
          dsimp only [emittedOf] at hsig hety
          rw [hsig, hety]
          constructor <;> intro hx <;> omega
        · rw [if_neg h1] at hsig hety
          by_cases h2 : c0 + 1 = 2
          · rw [if_pos h2] at hsig hety
            dsimp only [emittedOf] at hsig hety
            rw [hsig, hety]
            constructor <;> intro hx <;> omega
          · rw [if_neg h2] at hsig hety
            dsimp only [emittedOf] at hsig hety
            rw [hsig, hety]
            constructor <;> intro hx <;> omega
      · rw [if_neg (fun hand => hc hand.2)] at hsig hety
        dsimp only [emittedOf] at hsig hety
        rw [hsig, hety]
        constructor <;> intro hx <;> omega
    · rw [if_neg (fun hand => hnl hand.1)] at hsig hety
      dsimp only [emittedOf] at hsig hety
      rw [hsig, hety]
      constructor
      · intro hx
        exact absurd hx.1 (by decide)
      · intro hx
        exact absurd hx.1 hnl
  · rw [longSideUpdate_notUp p _ _ _ _ _ _ _ _ _ _ hU] at hsig hety
    dsimp only at hsig hety
    constructor
    · intro hx
      exfalso
      rcases hS : (shortSideUpdate p (detectStep d p i s).2.trend
          (newSwingHigh d i) (newSwingLow d i) (detectStep d p i s).1.sh0
          (detectStep d p i s).1.sl0 (detectStep d p i s).1.sl1
          (d.shPrice.getD i none) (d.atr.getD i none) s.shortCount
          s.shortTrig s.shortRef).2.2.2 with _ | eS
      · rw [hS] at hsig
        dsimp only [emittedOf] at hsig
        rw [hsig] at hx
        exact absurd hx.1 (by decide)
      · rw [hS] at hsig
        dsimp only [emittedOf] at hsig
        rw [hsig] at hx
        exact absurd hx.1 (by decide)
    · intro hx
      exact absurd hx.1 hU

theorem detect_emit_long1 (d : MarketData) (p : L1L2Params) (i : ℕ)
    (s : DetectState) :
    ((detectStep d p i s).2.signal = 1 ∧
        (detectStep d p i s).2.entryType = 1) ↔
      ((detectStep d p i s).2.trend = TREND_UP ∧ newSwingLow d i = true ∧
        p.trackFirstEntries = true ∧
        (if newSwingHigh d i = true then 0 else s.longCount) = 0) := by
  have hp := detectStep_emission d p i s
  dsimp only at hp
  have hsig := congrArg Prod.fst hp
  have hety := congrArg Prod.snd hp
  dsimp only at hsig hety
  by_cases hU : (detectStep d p i s).2.trend = TREND_UP
  · rw [hU] at hsig hety
    rw [shortSideUpdate_notDown p _ _ _ _ _ _ _ _ _ _
      (by decide : TREND_UP ≠ TREND_DOWN)] at hsig hety
    rw [longSideUpdate_up p (newSwingHigh d i) (newSwingLow d i) _ _ _ _ _
      s.longCount s.longTrig s.longRef
      (fun _ => detect_up_hh d p i s hU)] at hsig hety
    dsimp only at hsig hety
    simp only [hU, eq_self_iff_true, true_and]
    set c0 : ℤ := if newSwingHigh d i = true then 0 else s.longCount with hc0
    by_cases hnl : newSwingLow d i = true
    · simp only [hnl, eq_self_iff_true, true_and]
      by_cases hc : (0 : ℤ) ≤ c0
      · rw [if_pos ⟨hnl, hc⟩] at hsig hety
        by_cases h1 : c0 + 1 = 1 ∧ p.trackFirstEntries = true
        · rw [if_pos h1] at hsig hety
          dsimp only [emittedOf] at hsig hety
          rw [hsig, hety]
          exact ⟨fun _ => ⟨h1.2, by omega⟩, fun _ => ⟨rfl, rfl⟩⟩
        · rw [if_neg h1] at hsig hety
          by_cases h2 : c0 + 1 = 2
          · rw [if_pos h2] at hsig hety
            dsimp only [emittedOf] at hsig hety
            rw [hsig, hety]
            constructor
            · intro hx
              exact absurd hx.2 (by decide)
            · intro hx
              exact absurd ⟨by omega, hx.1⟩ h1
          · rw [if_neg h2] at hsig hety
            dsimp only [emittedOf] at hsig hety
            rw [hsig, hety]
            constructor
            · intro hx
              exact absurd hx.1 (by decide)
            · intro hx
              exact absurd ⟨by omega, hx.1⟩ h1
      · rw [if_neg (fun hand => hc hand.2)] at hsig hety
        dsimp only [emittedOf] at hsig hety
        rw [hsig, hety]
        constructor
        · intro hx
          exact absurd hx.1 (by decide)
        · intro hx
          obtain ⟨hxa, hxb⟩ := hx
          omega
    · rw [if_neg (fun hand => hnl hand.1)] at hsig hety
      dsimp only [emittedOf] at hsig hety
      rw [hsig, hety]
      constructor
      · intro hx
        exact absurd hx.1 (by decide)
      · intro hx
        exact absurd hx.1 hnl
  · rw [longSideUpdate_notUp p _ _ _ _ _ _ _ _ _ _ hU] at hsig hety
    dsimp only at hsig hety
    constructor
    · intro hx
      exfalso
      rcases hS : (shortSideUpdate p (detectStep d p i s).2.trend
          (newSwingHigh d i) (newSwingLow d i) (detectStep d p i s).1.sh0
          (detectStep d p i s).1.sl0 (detectStep d p i s).1.sl1
          (d.shPrice.getD i none) (d.atr.getD i none) s.shortCount
          s.shortTrig s.shortRef).2.2.2 with _ | eS
      · rw [hS] at hsig
        dsimp only [emittedOf] at hsig
        rw [hsig] at hx
        exact absurd hx.1 (by decide)
      · rw [hS] at hsig
        dsimp only [emittedOf] at hsig
        rw [hsig] at hx
        exact absurd hx.1 (by decide)
    · intro hx
      exact absurd hx.1 hU

theorem detect_emit_short2 (d : MarketData) (p : L1L2Params) (i : ℕ)
    (s : DetectState) :
    ((detectStep d p i s).2.signal = -1 ∧
        (detectStep d p i s).2.entryType = 2) ↔
      ((detectStep d p i s).2.trend = TREND_DOWN ∧ newSwingHigh d i = true ∧
        (if newSwingLow d i = true then 0 else s.shortCount) = 1) := by
  have hp := detectStep_emission d p i s
  dsimp only at hp
  have hsig := congrArg Prod.fst hp
  have hety := congrArg Prod.snd hp
  dsimp only at hsig hety
  by_cases hD : (detectStep d p i s).2.trend = TREND_DOWN
  · rw [hD] at hsig hety
    rw [longSideUpdate_notUp p _ _ _ _ _ _ _ _ _ _
      (by decide : TREND_DOWN ≠ TREND_UP)] at hsig hety
    rw [shortSideUpdate_down p (newSwingHigh d i) (newSwingLow d i) _ _ _ _ _
      s.shortCount s.shortTrig s.shortRef
      (fun _ => detect_down_ll d p i s hD)] at hsig hety
    dsimp only at hsig hety
    simp only [hD, eq_self_iff_true, true_and]
    set c0 : ℤ := if newSwingLow d i = true then 0 else s.shortCount with hc0
    by_cases hnh : newSwingHigh d i = true
    · simp only [hnh, eq_self_iff_true, true_and]
      by_cases hc : (0 : ℤ) ≤ c0
      · rw [if_pos ⟨hnh, hc⟩] at hsig hety
        by_cases h1 : c0 + 1 = 1 ∧ p.trackFirstEntries = true
        · rw [if_pos h1] at hsig hety
          obtain ⟨h1a, _⟩ := h1
          dsimp only [emittedOf] at hsig hety
          rw [hsig, hety]
          constructor <;> intro hx <;> omega
        · rw [if_neg h1] at hsig hety
          by_cases h2 : c0 + 1 = 2
          · rw [if_pos h2] at hsig hety
            dsimp only [emittedOf] at hsig hety
            rw [hsig, hety]
            constructor <;> intro hx <;> omega
          · rw [if_neg h2] at hsig hety
            dsimp only [emittedOf] at hsig hety
            rw [hsig, hety]
            constructor <;> intro hx <;> omega
      · rw [if_neg (fun hand => hc hand.2)] at hsig hety
        dsimp only [emittedOf] at hsig hety
        rw [hsig, hety]
        constructor <;> intro hx <;> omega
    · rw [if_neg (fun hand => hnh hand.1)] at hsig hety
      dsimp only [emittedOf] at hsig hety
      rw [hsig, hety]
      constructor
      · intro hx
        exact absurd hx.1 (by decide)
      · intro hx
        exact absurd hx.1 hnh
  · rw [shortSideUpdate_notDown p _ _ _ _ _ _ _ _ _ _ hD] at hsig hety
    dsimp only at hsig hety
    constructor
    · intro hx
      exfalso
      rcases hL : (longSideUpdate p (detectStep d p i s).2.trend
          (newSwingHigh d i) (newSwingLow d i) (detectStep d p i s).1.sh0
          (detectStep d p i s).1.sh1 (detectStep d p i s).1.sl0
          (d.slPrice.getD i none) (d.atr.getD i none) s.longCount
          s.longTrig s.longRef).2.2.2 with _ | eL
      · rw [hL] at hsig
        dsimp only [emittedOf] at hsig
        rw [hsig] at hx
        exact absurd hx.1 (by decide)
      · rw [hL] at hsig
        dsimp only [emittedOf] at hsig
        rw [hsig] at hx
        exact absurd hx.1 (by decide)
    · intro hx
      exact absurd hx.1 hD

theorem detect_emit_short1 (d : MarketData) (p : L1L2Params) (i : ℕ)
    (s : DetectState) :
    ((detectStep d p i s).2.signal = -1 ∧
        (detectStep d p i s).2.entryType = 1) ↔
      ((detectStep d p i s).2.trend = TREND_DOWN ∧ newSwingHigh d i = true ∧
        p.trackFirstEntries = true ∧
        (if newSwingLow d i = true then 0 else s.shortCount) = 0) := by
  have hp := detectStep_emission d p i s
  dsimp only at hp
  have hsig := congrArg Prod.fst hp
  have hety := congrArg Prod.snd hp
  dsimp only at hsig hety
  by_cases hD : (detectStep d p i s).2.trend = TREND_DOWN
  · rw [hD] at hsig hety
    rw [longSideUpdate_notUp p _ _ _ _ _ _ _ _ _ _
      (by decide : TREND_DOWN ≠ TREND_UP)] at hsig hety
    rw [shortSideUpdate_down p (newSwingHigh d i) (newSwingLow d i) _ _ _ _ _
      s.shortCount s.shortTrig s.shortRef
      (fun _ => detect_down_ll d p i s hD)] at hsig hety
    dsimp only at hsig hety
    simp only [hD, eq_self_iff_true, true_and]
    set c0 : ℤ := if newSwingLow d i = true then 0 else s.shortCount with hc0
    by_cases hnh : newSwingHigh d i = true
    · simp only [hnh, eq_self_iff_true, true_and]
      by_cases hc : (0 : ℤ) ≤ c0
      · rw [if_pos ⟨hnh, hc⟩] at hsig hety
        by_cases h1 : c0 + 1 = 1 ∧ p.trackFirstEntries = true
        · rw [if_pos h1] at hsig hety
          dsimp only [emittedOf] at hsig hety
          rw [hsig, hety]
          exact ⟨fun _ => ⟨h1.2, by omega⟩, fun _ => ⟨rfl, rfl⟩⟩
        · rw [if_neg h1] at hsig hety
          by_cases h2 : c0 + 1 = 2
          · rw [if_pos h2] at hsig hety
            dsimp only [emittedOf] at hsig hety
            rw [hsig, hety]
            constructor
            · intro hx
              exact absurd hx.2 (by decide)
            · intro hx
              exact absurd ⟨by omega, hx.1⟩ h1
          · rw [if_neg h2] at hsig hety
            dsimp only [emittedOf] at hsig hety
            rw [hsig, hety]
            constructor
            · intro hx
              exact absurd hx.1 (by decide)
            · intro hx
              exact absurd ⟨by omega, hx.1⟩ h1
      · rw [if_neg (fun hand => hc hand.2)] at hsig hety
        dsimp only [emittedOf] at hsig hety
        rw [hsig, hety]
        constructor
        · intro hx
          exact absurd hx.1 (by decide)
        · intro hx
          obtain ⟨hxa, hxb⟩ := hx
          omega
    · rw [if_neg (fun hand => hnh hand.1)] at hsig hety
      dsimp only [emittedOf] at hsig hety
      rw [hsig, hety]
      constructor
      · intro hx
        exact absurd hx.1 (by decide)
      · intro hx
        exact absurd hx.1 hnh
  · rw [shortSideUpdate_notDown p _ _ _ _ _ _ _ _ _ _ hD] at hsig hety
    dsimp only at hsig hety
    constructor
    · intro hx
      exfalso
      rcases hL : (longSideUpdate p (detectStep d p i s).2.trend
          (newSwingHigh d i) (newSwingLow d i) (detectStep d p i s).1.sh0
          (detectStep d p i s).1.sh1 (detectStep d p i s).1.sl0
          (d.slPrice.getD i none) (d.atr.getD i none) s.longCount
          s.longTrig s.longRef).2.2.2 with _ | eL
      · rw [hL] at hsig
        dsimp only [emittedOf] at hsig
        rw [hsig] at hx
        exact absurd hx.1 (by decide)
      · rw [hL] at hsig
        dsimp only [emittedOf] at hsig
        rw [hsig] at hx
        exact absurd hx.1 (by decide)
    · intro hx
      exact absurd hx.1 hD

/-- C3 counterexample: in the concrete uptrend run (first entries enabled),
bar 12 emits a second-entry long signal, consuming the counter (it is set
to -1, not reset to 0); at bar 14 a new opposing swing low confirms while
the trend is still UP, yet the counter does not increment and no signal
(in particular no first-entry signal) is emitted — refuting the claim that
the entry count increments on each new opposing swing while the trend
remains favorable, with the counter merely "reset" after consumption. -/
theorem c3_counterexample :
    (detectBar upData upParams 12).signal = 1 ∧
    (detectBar upData upParams 12).entryType = 2 ∧
    (detectBar upData upParams 14).trend = TREND_UP ∧
    newSwingLow upData 14 = true ∧
    (detectStateAt upData upParams 14).longCount = -1 ∧
    (detectStateAt upData upParams 15).longCount =
      (detectStateAt upData upParams 14).longCount ∧
    (detectBar upData upParams 14).signal = 0 ∧
    upParams.trackFirstEntries = true := by decide

/-- C3 (amended): per direction, the pullback counter resets to 0 whenever
the trend is not favorable on a bar, and, while favorable, whenever a new
same-direction extreme confirms (such an extreme always exceeds the prior
one — favorable trend forces HH resp. LL); a new opposing swing then
increments the (post-reset) counter unless it is in the consumed state
`-1`; a second-entry signal is emitted exactly when the incremented count
reaches 2, after which the counter is set to the consumed marker `-1`
(not 0) so that further opposing swings neither increment it nor emit
signals until a reset rearms it; a first-entry signal is emitted exactly
when the incremented count reaches 1 and first entries are enabled. -/
theorem c3_pullback_amended (d : MarketData) (p : L1L2Params) (i : ℕ) :
    ((detectBar d p i).trend = TREND_UP → newSwingHigh d i = true →
      oGt (detectStateAt d p (i + 1)).sh0
        (detectStateAt d p (i + 1)).sh1 = true) ∧
    ((detectBar d p i).trend ≠ TREND_UP →
      (detectStateAt d p (i + 1)).longCount = 0) ∧
    ((detectBar d p i).trend = TREND_UP →
      (detectStateAt d p (i + 1)).longCount =
        (let c0 : ℤ := if newSwingHigh d i = true then 0
           else (detectStateAt d p i).longCount
         if newSwingLow d i = true ∧ 0 ≤ c0 then
           if c0 = 1 then -1 else c0 + 1
         else c0)) ∧
    (((detectBar d p i).signal = 1 ∧ (detectBar d p i).entryType = 2) ↔
      ((detectBar d p i).trend = TREND_UP ∧ newSwingLow d i = true ∧
        (if newSwingHigh d i = true then 0
         else (detectStateAt d p i).longCount) = 1)) ∧
    (((detectBar d p i).signal = 1 ∧ (detectBar d p i).entryType = 1) ↔
      ((detectBar d p i).trend = TREND_UP ∧ newSwingLow d i = true ∧
        p.trackFirstEntries = true ∧
        (if newSwingHigh d i = true then 0
         else (detectStateAt d p i).longCount) = 0)) ∧
    ((detectBar d p i).trend = TREND_DOWN → newSwingLow d i = true →
      oLt (detectStateAt d p (i + 1)).sl0
        (detectStateAt d p (i + 1)).sl1 = true) ∧
    ((detectBar d p i).trend ≠ TREND_DOWN →
      (detectStateAt d p (i + 1)).shortCount = 0) ∧
    ((detectBar d p i).trend = TREND_DOWN →
      (detectStateAt d p (i + 1)).shortCount =
        (let c0 : ℤ := if newSwingLow d i = true then 0
           else (detectStateAt d p i).shortCount
         if newSwingHigh d i = true ∧ 0 ≤ c0 then
           if c0 = 1 then -1 else c0 + 1
         else c0)) ∧
    (((detectBar d p i).signal = -1 ∧ (detectBar d p i).entryType = 2) ↔
      ((detectBar d p i).trend = TREND_DOWN ∧ newSwingHigh d i = true ∧
        (if newSwingLow d i = true then 0
         else (detectStateAt d p i).shortCount) = 1)) ∧
    (((detectBar d p i).signal = -1 ∧ (detectBar d p i).entryType = 1) ↔
      ((detectBar d p i).trend = TREND_DOWN ∧ newSwingHigh d i = true ∧
        p.trackFirstEntries = true ∧
        (if newSwingLow d i = true then 0
         else (detectStateAt d p i).shortCount) = 0)) :=
  ⟨fun hU _ => detect_up_hh d p i (detectStateAt d p i) hU,
   detect_longCount_notUp d p i (detectStateAt d p i),
   detect_longCount_up d p i (detectStateAt d p i),
   detect_emit_long2 d p i (detectStateAt d p i),
   detect_emit_long1 d p i (detectStateAt d p i),
   fun hD _ => detect_down_ll d p i (detectStateAt d p i) hD,
   detect_shortCount_notDown d p i (detectStateAt d p i),
   detect_shortCount_down d p i (detectStateAt d p i),
   detect_emit_short2 d p i (detectStateAt d p i),
   detect_emit_short1 d p i (detectStateAt d p i)⟩

/-- Witness for `c3_pullback_amended` at the concrete uptrend run, bar 12:
the counter is consumed to -1 and the second-entry emission condition is
met. -/
theorem c3_pullback_amended_witness :
    (detectStateAt upData upParams 13).longCount = -1 ∧
    ((detectBar upData upParams 12).signal = 1 ∧
      (detectBar upData upParams 12).entryType = 2) := by
  have h := c3_pullback_amended upData upParams 12
  constructor
  · exact (h.2.2.1 (by decide)).trans (by decide)
  · exact (h.2.2.2.1).mpr (by decide)

/-! ### Exit priority -/

theorem exitDecision_eq_spec (posType : ℤ) (stopPrice targetPrice : ℚ)
    (maxHold barsHeld : ℕ) (hi lo cl : ℚ) :
    exitDecision posType stopPrice targetPrice maxHold barsHeld hi lo cl =
      specExitOrdered posType stopPrice targetPrice maxHold barsHeld hi lo
        cl := by
  unfold exitDecision specExitOrdered specFirstMatch
  by_cases hp1 : posType = 1
  · simp only [hp1, if_true]
    by_cases h1 : lo ≤ stopPrice <;> by_cases h2 : hi ≥ targetPrice <;>
      by_cases h3 : maxHold ≤ barsHeld <;> simp [h1, h2, h3, List.filter]
  · simp only [hp1, if_false]
    by_cases h1 : hi ≥ stopPrice <;> by_cases h2 : lo ≤ targetPrice <;>
      by_cases h3 : maxHold ≤ barsHeld <;> simp [h1, h2, h3, List.filter]

theorem exitDecision_price (posType : ℤ) (stopPrice targetPrice : ℚ)
    (maxHold barsHeld : ℕ) (hi lo cl xp : ℚ) (r : ExitReason)
    (h : exitDecision posType stopPrice targetPrice maxHold barsHeld hi lo cl
      = some (xp, r)) :
    (r = .stop → xp = stopPrice) ∧ (r = .target → xp = targetPrice) ∧
      (r = .time → xp = cl) := by
  unfold exitDecision at h
  by_cases hp1 : posType = 1
  · rw [if_pos hp1] at h
    by_cases h1 : lo ≤ stopPrice
    · rw [if_pos h1] at h
      dsimp only at h
      simp only [Option.some.injEq, Prod.mk.injEq] at h
      obtain ⟨hxp, hr⟩ := h
      subst hxp
      subst hr
      exact ⟨fun _ => rfl, fun hc => absurd hc (by decide),
        fun hc => absurd hc (by decide)⟩
    · rw [if_neg h1] at h
      by_cases h2 : hi ≥ targetPrice
      · rw [if_pos h2] at h
        dsimp only at h
        simp only [Option.some.injEq, Prod.mk.injEq] at h
        obtain ⟨hxp, hr⟩ := h
        subst hxp
        subst hr
        exact ⟨fun hc => absurd hc (by decide), fun _ => rfl,
          fun hc => absurd hc (by decide)⟩
      · rw [if_neg h2] at h
        dsimp only at h
        by_cases h3 : maxHold ≤ barsHeld
        · rw [if_pos h3] at h
          simp only [Option.some.injEq, Prod.mk.injEq] at h
          obtain ⟨hxp, hr⟩ := h
          subst hxp
          subst hr
          exact ⟨fun hc => absurd hc (by decide),
            fun hc => absurd hc (by decide), fun _ => rfl⟩
        · rw [if_neg h3] at h
          exact absurd h (by simp)
  · rw [if_neg hp1] at h
    by_cases h1 : hi ≥ stopPrice
    · rw [if_pos h1] at h
      dsimp only at h
      simp only [Option.some.injEq, Prod.mk.injEq] at h
      obtain ⟨hxp, hr⟩ := h
      subst hxp
      subst hr
      exact ⟨fun _ => rfl, fun hc => absurd hc (by decide),
        fun hc => absurd hc (by decide)⟩
    · rw [if_neg h1] at h
      by_cases h2 : lo ≤ targetPrice
      · rw [if_pos h2] at h
        dsimp only at h
        simp only [Option.some.injEq, Prod.mk.injEq] at h
        obtain ⟨hxp, hr⟩ := h
        subst hxp
        subst hr
        exact ⟨fun hc => absurd hc (by decide), fun _ => rfl,
          fun hc => absurd hc (by decide)⟩
      · rw [if_neg h2] at h
        dsimp only at h
        by_cases h3 : maxHold ≤ barsHeld
        · rw [if_pos h3] at h
          simp only [Option.some.injEq, Prod.mk.injEq] at h
          obtain ⟨hxp, hr⟩ := h
          subst hxp
          subst hr
          exact ⟨fun hc => absurd hc (by decide),
            fun hc => absurd hc (by decide), fun _ => rfl⟩
        · rw [if_neg h3] at h
          exact absurd h (by simp)

theorem btStepCore_exitLink (d : MarketData) (sig : BtSignals)
    (p : L1L2Params) (i : ℕ) (s : BtState) (h : s.inPosition = true) :
    (btStepCore d sig p i s).2 =
      Option.map
        (fun ex : ℚ × ExitReason =>
          ({ signalBar := s.tradeSignalBar, entryBar := s.entryBar
             exitBar := i, direction := s.posType
             entryType := s.tradeEntryType, entryPrice := s.entryPrice
             exitPrice := ex.1, stop := s.stopPrice, target := s.targetPrice
             pnl := closePnl p s.posType s.entryPrice ex.1
             barsHeld := i - s.entryBar, reason := ex.2
             date := d.dates.getD i 0 } : BtTrade))
        (exitDecision s.posType s.stopPrice s.targetPrice p.maxHold
          (i - s.entryBar) (d.highs.getD i 0) (d.lows.getD i 0)
          (d.closes.getD i 0)) ∧
    ((btStepCore d sig p i s).1.inPosition = true ↔
      exitDecision s.posType s.stopPrice s.targetPrice p.maxHold
        (i - s.entryBar) (d.highs.getD i 0) (d.lows.getD i 0)
        (d.closes.getD i 0) = none) := by
  unfold btStepCore
  rw [if_pos h]
  dsimp only
  rcases he : exitDecision s.posType s.stopPrice s.targetPrice p.maxHold
      (i - s.entryBar) (d.highs.getD i 0) (d.lows.getD i 0)
      (d.closes.getD i 0) with _ | ex
  · exact ⟨rfl, ⟨fun _ => rfl, fun _ => h⟩⟩
  · exact ⟨rfl, by simp⟩

/-- C4: Exit priority and exit prices — the in-position exit evaluation of
`backtest` equals the specification's ordered first-match rule (stop hit →
target hit → time exit), reasons determine the recorded exit price (the
stop/target level itself, the bar's close for time exits), and while a
position is open the loop body emits exactly the trade described by that
decision, closing the position iff an exit fired. -/
theorem c4_exit_priority :
    (∀ (posType : ℤ) (stopPrice targetPrice : ℚ) (maxHold barsHeld : ℕ)
        (hi lo cl : ℚ),
      exitDecision posType stopPrice targetPrice maxHold barsHeld hi lo cl =
        specExitOrdered posType stopPrice targetPrice maxHold barsHeld hi lo
          cl) ∧
    (∀ (posType : ℤ) (stopPrice targetPrice : ℚ) (maxHold barsHeld : ℕ)
        (hi lo cl xp : ℚ) (r : ExitReason),
      exitDecision posType stopPrice targetPrice maxHold barsHeld hi lo cl =
          some (xp, r) →
        (r = .stop → xp = stopPrice) ∧ (r = .target → xp = targetPrice) ∧
          (r = .time → xp = cl)) ∧
    (∀ (d : MarketData) (sig : BtSignals) (p : L1L2Params) (i : ℕ)
        (s : BtState), s.inPosition = true →
      (btStepCore d sig p i s).2 =
        Option.map
          (fun ex : ℚ × ExitReason =>
            ({ signalBar := s.tradeSignalBar, entryBar := s.entryBar
               exitBar := i, direction := s.posType
               entryType := s.tradeEntryType, entryPrice := s.entryPrice
               exitPrice := ex.1, stop := s.stopPrice
               target := s.targetPrice
               pnl := closePnl p s.posType s.entryPrice ex.1
               barsHeld := i - s.entryBar, reason := ex.2
               date := d.dates.getD i 0 } : BtTrade))
          (exitDecision s.posType s.stopPrice s.targetPrice p.maxHold
            (i - s.entryBar) (d.highs.getD i 0) (d.lows.getD i 0)
            (d.closes.getD i 0)) ∧
      ((btStepCore d sig p i s).1.inPosition = true ↔
        exitDecision s.posType s.stopPrice s.targetPrice p.maxHold
          (i - s.entryBar) (d.highs.getD i 0) (d.lows.getD i 0)
          (d.closes.getD i 0) = none)) :=
  ⟨exitDecision_eq_spec, exitDecision_price, btStepCore_exitLink⟩

/-- Witness for `c4_exit_priority`: the exit decision agrees with the
specification rule on a concrete bar where both stop and target are
touchable (the stop wins), and on a concrete open position over the
concrete series the loop body keeps the position open exactly when no exit
condition fires. -/
theorem c4_exit_priority_witness :
    exitDecision 1 90 110 30 2 120 85 100 =
      specExitOrdered 1 90 110 30 2 120 85 100 ∧
    ((btStepCore zpData zpSignals zpParams 3
        { BtState.init with
            inPosition := true
            posType := 1
            entryBar := 2
            entryPrice := 100
            stopPrice := 90
            targetPrice := 110 }).1.inPosition = true ↔
      exitDecision 1 90 110 30 1 101 99 100 = none) :=
  ⟨c4_exit_priority.1 1 90 110 30 2 120 85 100,
   (c4_exit_priority.2.2 zpData zpSignals zpParams 3
     { BtState.init with
         inPosition := true
         posType := 1
         entryBar := 2
         entryPrice := 100
         stopPrice := 90
         targetPrice := 110 } rfl).2⟩

/-! ### C5: stop monotonicity in the trailing backtest -/

theorem le_qmax_left (a b : ℚ) : a ≤ qmax a b := by
  unfold qmax
  split_ifs with h
  · exact h
  · exact le_rfl

theorem qmin_le_left (a b : ℚ) : qmin a b ≤ a := by
  unfold qmin
  split_ifs with h
  · exact le_rfl
  · exact le_of_not_le h

theorem trailUpdate_long_mono (d : MarketData) (b : ℚ) (be : Bool) (i : ℕ)
    (e st : ℚ) (bm : Bool) (tc : ℕ) :
    st ≤ (trailUpdate d b be i 1 e st bm tc).1 := by
  unfold trailUpdate
  rw [if_pos rfl]
  by_cases hs : (d.swingLow.getD i false && (d.slPrice.getD i none).isSome)
      = true
  · rw [if_pos hs]
    dsimp only
    split_ifs with h1 h2 h3
    · exact le_of_lt (lt_of_le_of_lt (le_qmax_left _ _) h2)
    · exact le_qmax_left _ _
    · exact le_of_lt h3
    · exact le_rfl
  · rw [if_neg hs]

theorem trailUpdate_short_mono (d : MarketData) (b : ℚ) (be : Bool) (i : ℕ)
    (pt : ℤ) (e st : ℚ) (bm : Bool) (tc : ℕ) (hp : pt ≠ 1) :
    (trailUpdate d b be i pt e st bm tc).1 ≤ st := by
  unfold trailUpdate
  rw [if_neg hp]
  by_cases hs : (d.swingHigh.getD i false && (d.shPrice.getD i none).isSome)
      = true
  · rw [if_pos hs]
    dsimp only
    split_ifs with h1 h2 h3
    · exact le_of_lt (lt_of_lt_of_le h2 (qmin_le_left _ _))
    · exact qmin_le_left _ _
    · exact le_of_lt h3
    · exact le_rfl
  · rw [if_neg hs]

theorem trailDayReset_pos (d : MarketData) (i : ℕ) (s : TrailState) :
    (trailDayReset d i s).inPosition = s.inPosition ∧
      (trailDayReset d i s).posType = s.posType ∧
      (trailDayReset d i s).stopPrice = s.stopPrice := by
  unfold trailDayReset
  dsimp only
  split_ifs <;> exact ⟨rfl, rfl, rfl⟩

theorem trailStepCore_inpos_mono (d : MarketData) (sig : BtSignals)
    (p : TrailParams) (i : ℕ) (s : TrailState) (h : s.inPosition = true) :
    (trailStepCore d sig p i s).1.inPosition = false ∨
      ((trailStepCore d sig p i s).1.posType = s.posType ∧
        (s.posType = 1 →
          s.stopPrice ≤ (trailStepCore d sig p i s).1.stopPrice) ∧
        (s.posType ≠ 1 →
          (trailStepCore d sig p i s).1.stopPrice ≤ s.stopPrice)) := by
  unfold trailStepCore
  rw [if_pos h]
  dsimp only
  rcases he : trailExitDecision p.keepTarget
      (trailUpdate d p.trailBufferAtr p.useBreakeven i s.posType s.entryPrice
        s.stopPrice s.beMoved s.trailCount).2.2 s.posType
      (trailUpdate d p.trailBufferAtr p.useBreakeven i s.posType s.entryPrice
        s.stopPrice s.beMoved s.trailCount).1 s.targetPrice p.base.maxHold
      (i - s.entryBar) (d.highs.getD i 0) (d.lows.getD i 0)
      (d.closes.getD i 0) with _ | ex
  · refine Or.inr ⟨rfl, ?_, ?_⟩
    · intro hp
      have hm := trailUpdate_long_mono d p.trailBufferAtr p.useBreakeven i
        s.entryPrice s.stopPrice s.beMoved s.trailCount
      dsimp only
      rw [hp]
      exact hm
    · intro hp
      exact trailUpdate_short_mono d p.trailBufferAtr p.useBreakeven i
        s.posType s.entryPrice s.stopPrice s.beMoved s.trailCount hp
  · exact Or.inl rfl

theorem trailStep_inpos_mono (d : MarketData) (sig : BtSignals)
    (p : TrailParams) (i : ℕ) (s : TrailState) (h : s.inPosition = true) :
    (trailStep d sig p i s).1.inPosition = false ∨
      ((trailStep d sig p i s).1.posType = s.posType ∧
        (s.posType = 1 →
          s.stopPrice ≤ (trailStep d sig p i s).1.stopPrice) ∧
        (s.posType ≠ 1 →
          (trailStep d sig p i s).1.stopPrice ≤ s.stopPrice)) := by
  obtain ⟨hdp, hdt, hds⟩ := trailDayReset_pos d i s
  have h' : (trailDayReset d i s).inPosition = true := hdp.trans h
  rcases trailStepCore_inpos_mono d sig p i (trailDayReset d i s) h' with
    h0 | ⟨hpt, hlong, hshort⟩
  · exact Or.inl h0
  · refine Or.inr ⟨hpt.trans hdt, ?_, ?_⟩
    · intro hp
      have hx := hlong (hdt.trans hp)
      rw [hds] at hx
      exact hx
    · intro hp
      have hx := hshort (fun hc => hp (hdt.symm.trans hc))
      rw [hds] at hx
      exact hx

theorem trailStateAt_stop_mono (d : MarketData) (sig : BtSignals)
    (p : TrailParams) (i j : ℕ) (hij : i ≤ j)
    (hheld : ∀ m, i ≤ m → m ≤ j →
      (trailStateAt d sig p m).inPosition = true) :
    (trailStateAt d sig p j).posType = (trailStateAt d sig p i).posType ∧
      ((trailStateAt d sig p i).posType = 1 →
        (trailStateAt d sig p i).stopPrice ≤
          (trailStateAt d sig p j).stopPrice) ∧
      ((trailStateAt d sig p i).posType ≠ 1 →
        (trailStateAt d sig p j).stopPrice ≤
          (trailStateAt d sig p i).stopPrice) := by
  induction j, hij using Nat.le_induction with
  | base => exact ⟨rfl, fun _ => le_rfl, fun _ => le_rfl⟩
  | succ j hij ih =>
    have hheld' : ∀ m, i ≤ m → m ≤ j →
        (trailStateAt d sig p m).inPosition = true :=
      fun m hm1 hm2 => hheld m hm1 (hm2.trans (Nat.le_succ j))
    obtain ⟨ihp, ihl, ihs⟩ := ih hheld'
    have hposj : (trailStateAt d sig p j).inPosition = true :=
      hheld j hij (Nat.le_succ j)
    have hposj1 : (trailStateAt d sig p (j + 1)).inPosition = true :=
      hheld (j + 1) (hij.trans (Nat.le_succ j)) le_rfl
    have hj0 : ¬j = 0 := by
      intro h0
      rw [h0] at hposj1
      simp [trailStateAt, TrailState.init] at hposj1
    have hstep : trailStateAt d sig p (j + 1)
        = (trailStep d sig p j (trailStateAt d sig p j)).1 := by
      have h0 : trailStateAt d sig p (j + 1)
          = if j = 0 then TrailState.init
            else (trailStep d sig p j (trailStateAt d sig p j)).1 := rfl
      rw [h0, if_neg hj0]
    rcases trailStep_inpos_mono d sig p j (trailStateAt d sig p j) hposj with
      hdead | ⟨hpt, hlong, hshort⟩
    · rw [hstep, hdead] at hposj1
      exact absurd hposj1 (by decide)
    · refine ⟨?_, ?_, ?_⟩
      · rw [hstep, hpt, ihp]
      · intro hp
        rw [hstep]
        exact (ihl hp).trans (hlong (ihp.trans hp))
      · intro hp
        rw [hstep]
        exact (hshort (fun hc => hp (ihp.symm.trans hc))).trans (ihs hp)

/-- C5: stop monotonicity — a single trailing-stop update never widens the
stop (for a long it can only raise it, for a short only lower it), and over
any interval of bars during which the trailing backtest holds a position
the stop price is non-decreasing for a long and non-increasing for a
short. -/
theorem c5_stop_monotonicity :
    (∀ (d : MarketData) (b : ℚ) (be : Bool) (i : ℕ) (pt : ℤ) (e st : ℚ)
        (bm : Bool) (tc : ℕ),
      (pt = 1 → st ≤ (trailUpdate d b be i pt e st bm tc).1) ∧
      (pt ≠ 1 → (trailUpdate d b be i pt e st bm tc).1 ≤ st)) ∧
    (∀ (d : MarketData) (sig : BtSignals) (p : TrailParams) (i j : ℕ),
      i ≤ j →
      (∀ m, i ≤ m → m ≤ j →
        (trailStateAt d sig p m).inPosition = true) →
      ((trailStateAt d sig p i).posType = 1 →
        (trailStateAt d sig p i).stopPrice ≤
          (trailStateAt d sig p j).stopPrice) ∧
      ((trailStateAt d sig p i).posType ≠ 1 →
        (trailStateAt d sig p j).stopPrice ≤
          (trailStateAt d sig p i).stopPrice)) := by
  constructor
  · intro d b be i pt e st bm tc
    constructor
    · intro hp
      subst hp
      exact trailUpdate_long_mono d b be i e st bm tc
    · intro hp
      exact trailUpdate_short_mono d b be i pt e st bm tc hp
  · intro d sig p i j hij hheld
    exact (trailStateAt_stop_mono d sig p i j hij hheld).2

/-- Witness for `c5_stop_monotonicity`: on the concrete trailing run a long
position is held from bar 3 through bar 6 and its stop price never
decreases over that interval. -/
theorem c5_stop_monotonicity_witness :
    (trailStateAt trData trSignals trParams 3).stopPrice ≤
      (trailStateAt trData trSignals trParams 6).stopPrice :=
  (c5_stop_monotonicity.2 trData trSignals trParams 3 6 (by decide)
    (fun m h1 h2 => by interval_cases m <;> decide!)).1 (by decide!)


/-! ### C6: circuit-breaker gate in the fixed backtest -/

theorem dayReset_new_day (d : MarketData) (i : ℕ) (s : BtState)
    (h : ¬s.currentDate = some (d.dates.getD i 0)) :
    (dayReset d i s).dailyPnl = 0 ∧ (dayReset d i s).consecLosses = 0 := by
  unfold dayReset
  rw [if_neg h]
  exact ⟨rfl, rfl⟩

theorem btStepCore_frozen (d : MarketData) (sig : BtSignals) (p : L1L2Params)
    (i : ℕ) (s : BtState) (hbr : breach p s) (hpos : s.inPosition = false)
    (hpend : s.hasPending = false) :
    btStepCore d sig p i s = (s, none) := by
  unfold btStepCore
  rw [if_neg (by rw [hpos]; exact Bool.false_ne_true),
    if_neg (by rw [hpend]; exact Bool.false_ne_true)]
  rcases hbr with h1 | h2
  · rw [if_pos h1]
  · by_cases h1 : s.dailyPnl ≤ p.maxDailyLoss
    · rw [if_pos h1]
    · rw [if_neg h1, if_pos h2]

theorem btStep_frozen (d : MarketData) (sig : BtSignals) (p : L1L2Params)
    (i : ℕ) (s : BtState) (hbr : breach p s) (hpos : s.inPosition = false)
    (hpend : s.hasPending = false)
    (hdate : s.currentDate = some (d.dates.getD i 0)) :
    btStep d sig p i s = (s, none) := by
  unfold btStep
  have hd : dayReset d i s = s := by
    unfold dayReset
    rw [if_pos hdate]
  rw [hd]
  exact btStepCore_frozen d sig p i s hbr hpos hpend

theorem btStateAt_frozen (d : MarketData) (sig : BtSignals) (p : L1L2Params)
    (i j : ℕ) (hi1 : 1 ≤ i) (hij : i ≤ j)
    (hbr : breach p (btStateAt d sig p i))
    (hpos : (btStateAt d sig p i).inPosition = false)
    (hpend : (btStateAt d sig p i).hasPending = false)
    (hdates : ∀ m, i ≤ m → m < j →
      (btStateAt d sig p i).currentDate = some (d.dates.getD m 0)) :
    btStateAt d sig p j = btStateAt d sig p i ∧
      ∀ m, i ≤ m → m < j → btTradeAt d sig p m = none := by
  induction j, hij using Nat.le_induction with
  | base => exact ⟨rfl, fun m hm1 hm2 => absurd hm2 (by omega)⟩
  | succ j hij ih =>
    have hdates' : ∀ m, i ≤ m → m < j →
        (btStateAt d sig p i).currentDate = some (d.dates.getD m 0) :=
      fun m h1 h2 => hdates m h1 (h2.trans (Nat.lt_succ_self j))
    obtain ⟨hst, htr⟩ := ih hdates'
    have hstep : btStateAt d sig p (j + 1)
        = (btStep d sig p j (btStateAt d sig p j)).1 := by
      have h0 : btStateAt d sig p (j + 1)
          = if j = 0 then BtState.init
            else (btStep d sig p j (btStateAt d sig p j)).1 := rfl
      rw [h0, if_neg (by omega)]
    have hfr : btStep d sig p j (btStateAt d sig p j)
        = (btStateAt d sig p i, none) := by
      rw [hst]
      exact btStep_frozen d sig p j (btStateAt d sig p i) hbr hpos hpend
        (hdates j hij (Nat.lt_succ_self j))
    refine ⟨?_, ?_⟩
    · rw [hstep, hfr]
    · intro m hm1 hm2
      by_cases hmj : m < j
      · exact htr m hm1 hmj
      · have hmeq : m = j := by omega
        subst hmeq
        unfold btTradeAt
        rw [if_neg (by omega), hfr]

/-- C6: circuit-breaker gate — (1) the first bar of a new calendar day
resets the daily P&L and the consecutive-loss counter to zero; (2) once
the breach condition (daily P&L at or below the loss limit, or consecutive
losses at or above the maximum) holds with no open position and no pending
order, the backtest state is frozen and no trade is recorded for as long
as the calendar day lasts, so no new entry is placed regardless of
subsequent signals; (3) the breaker never force-closes an open position:
while in a position the loop body keeps it open exactly when no
stop/target/time exit condition fires. -/
theorem c6_circuit_breaker :
    (∀ (d : MarketData) (i : ℕ) (s : BtState),
      ¬s.currentDate = some (d.dates.getD i 0) →
        (dayReset d i s).dailyPnl = 0 ∧ (dayReset d i s).consecLosses = 0) ∧
    (∀ (d : MarketData) (sig : BtSignals) (p : L1L2Params) (i j : ℕ),
      1 ≤ i → i ≤ j →
      breach p (btStateAt d sig p i) →
      (btStateAt d sig p i).inPosition = false →
      (btStateAt d sig p i).hasPending = false →
      (∀ m, i ≤ m → m < j →
        (btStateAt d sig p i).currentDate = some (d.dates.getD m 0)) →
      btStateAt d sig p j = btStateAt d sig p i ∧
        ∀ m, i ≤ m → m < j → btTradeAt d sig p m = none) ∧
    (∀ (d : MarketData) (sig : BtSignals) (p : L1L2Params) (i : ℕ)
        (s : BtState), s.inPosition = true →
      ((btStepCore d sig p i s).1.inPosition = true ↔
        exitDecision s.posType s.stopPrice s.targetPrice p.maxHold
          (i - s.entryBar) (d.highs.getD i 0) (d.lows.getD i 0)
          (d.closes.getD i 0) = none)) :=
  ⟨dayReset_new_day,
   fun d sig p i j h1 h2 h3 h4 h5 h6 =>
     btStateAt_frozen d sig p i j h1 h2 h3 h4 h5 h6,
   fun d sig p i s h => (btStepCore_exitLink d sig p i s h).2⟩

/-- Witness for `c6_circuit_breaker`: on the concrete breaker run a −240
loss at bar 2 breaches the −200 daily loss limit; the state is frozen from
bar 3 to the end of the day and the favorable signal feeding bar 4 places
no entry and records no trade. -/
theorem c6_circuit_breaker_witness :
    btStateAt zpData cbSignals cbParams 5
        = btStateAt zpData cbSignals cbParams 3 ∧
      btTradeAt zpData cbSignals cbParams 4 = none :=
  ⟨(c6_circuit_breaker.2.1 zpData cbSignals cbParams 3 5 (by omega) (by omega)
      (by decide!) (by decide!) (by decide!)
      (fun m hm1 hm2 => by interval_cases m <;> decide!)).1,
   (c6_circuit_breaker.2.1 zpData cbSignals cbParams 3 5 (by omega) (by omega)
      (by decide!) (by decide!) (by decide!)
      (fun m hm1 hm2 => by interval_cases m <;> decide!)).2 4 (by omega)
      (by omega)⟩


/-- C7: risk-counter update on close — the main exit block of `backtest`
follows the specification, but the same-bar close block does not: on the
concrete run the first trade loses 10 (counter 1), the second trade closes
on its fill bar with a P&L of exactly zero, and the counter stays at 1,
whereas the specification's update (reset to 0 on every non-negative
result) yields 0. -/
theorem c7_consec_reset_bug :
    ((backtestRun zpData zpSignals zpParams).map
        (fun t => (t.entryBar, t.exitBar, t.pnl)) = [(2, 2, -10), (4, 4, 0)]) ∧
      (btStateAt zpData zpSignals zpParams 4).consecLosses = 1 ∧
      (btStateAt zpData zpSignals zpParams 5).consecLosses = 1 ∧
      specConsecLossesUpdate
        (btStateAt zpData zpSignals zpParams 4).consecLosses 0 = 0 := by
  decide!


/-- C8 counterexample: in the spec's breakeven scenario (long entered at
100, initial stop 95, breakeven enabled) the favorable swing low of 106
confirmed at bar 5 does NOT move the stop to exactly 100: the same update
also ratchets the trailing stop to 106 minus the 3-point buffer, so the
stop after the bar is 103. -/
theorem c8_counterexample :
    (trailStateAt trData trSignals trParams 5).inPosition = true ∧
      (trailStateAt trData trSignals trParams 5).entryPrice = 100 ∧
      (trailStateAt trData trSignals trParams 5).stopPrice = 95 ∧
      (trailStateAt trData trSignals trParams 5).beMoved = false ∧
      trData.swingLow.getD 5 false = true ∧
      trData.slPrice.getD 5 none = some 106 ∧
      (trailStateAt trData trSignals trParams 6).stopPrice = 103 ∧
      ¬(trailStateAt trData trSignals trParams 6).stopPrice = 100 := by
  decide!

/-- C8 (amended): for a long entered at 100 with stop 95, breakeven
enabled and not yet moved, a confirmed favorable swing low of 106 sets the
stop to the maximum of the entry price 100 and the trailed level
106 − buffer (so at least breakeven, and above it when the trail is
tighter); and once the stop is at or above the entry price 100, no later
update — favorable or unfavorable — ever takes it back below 100. -/
theorem c8_breakeven_amended :
    (∀ (d : MarketData) (b : ℚ) (i tc : ℕ),
      d.swingLow.getD i false = true →
      d.slPrice.getD i none = some 106 →
      (trailUpdate d b true i 1 100 95 false tc).1
        = qmax 100 (106 - trailBufAt d b i)) ∧
    (∀ (d : MarketData) (b : ℚ) (be : Bool) (i : ℕ) (st : ℚ) (bm : Bool)
        (tc : ℕ), 100 ≤ st →
      100 ≤ (trailUpdate d b be i 1 100 st bm tc).1) := by
  constructor
  · intro d b i tc h1 h2
    unfold trailUpdate
    rw [if_pos rfl, if_pos (by rw [h1, h2]; rfl)]
    dsimp only
    rw [h2]
    simp only [Option.getD_some]
    have hbe : True ∧ ¬(false : Bool) = true ∧
        (106 : ℚ) > 100 := ⟨trivial, by decide, by decide⟩
    rw [if_pos hbe]
    have hq : qmax (95 : ℚ) 100 = 100 := by decide
    dsimp only
    rw [hq]
    by_cases hx : 106 - trailBufAt d b i > 100
    · rw [if_pos hx]
      unfold qmax
      rw [if_pos (le_of_lt hx)]
    · rw [if_neg hx]
      unfold qmax
      by_cases h3 : (100 : ℚ) ≤ 106 - trailBufAt d b i
      · rw [if_pos h3]
        exact (le_antisymm (not_lt.mp hx) h3).symm
      · rw [if_neg h3]
  · intro d b be i st bm tc hst
    exact hst.trans (trailUpdate_long_mono d b be i 100 st bm tc)

/-- Witness for `c8_breakeven_amended`: on the concrete trailing data the
bar-5 update from stop 95 lands on `qmax 100 (106 − buffer)` (= 103), and
the bar-7 update (unfavorable swing low 98) keeps the stop at or above
100. -/
theorem c8_breakeven_amended_witness :
    (trailUpdate trData (3/10) true 5 1 100 95 false 0).1
        = qmax 100 (106 - trailBufAt trData (3/10) 5) ∧
      100 ≤ (trailUpdate trData (3/10) true 7 1 100 103 true 1).1 :=
  ⟨c8_breakeven_amended.1 trData (3/10) 5 0 (by decide!) (by decide!),
   c8_breakeven_amended.2 trData (3/10) true 7 103 true 1 (by decide)⟩


/-! ### C9: pending-order expiration in `backtest_v2` -/

theorem v2StepCore_expired (d : MarketData) (sig : V2Signals) (p : V2Params)
    (i : ℕ) (s : V2BtState) (h1 : s.inPosition = false)
    (h2 : s.hasPending = true)
    (h3 : p.orderTimeout < i - s.pendingPlacedBar) :
    v2StepCore d sig p i s
      = v2EntryBlock d sig p i { s with hasPending := false } := by
  unfold v2StepCore
  rw [if_neg (by rw [h1]; exact Bool.false_ne_true), if_pos h2, if_pos h3]

theorem v2EntryBlock_noFill (d : MarketData) (sig : V2Signals)
    (p : V2Params) (i : ℕ) (s : V2BtState) :
    (v2EntryBlock d sig p i s).1.totalFills = s.totalFills ∧
      (v2EntryBlock d sig p i s).2 = none := by
  unfold v2EntryBlock
  dsimp only
  split_ifs <;> try exact ⟨rfl, rfl⟩
  rcases sig.entryPrice.getD i none with _ | ep <;>
    rcases sig.stopPrice.getD i none with _ | sp <;>
    exact ⟨rfl, rfl⟩

theorem v2StepCore_fill (d : MarketData) (sig : V2Signals) (p : V2Params)
    (i : ℕ) (s : V2BtState) (h1 : s.inPosition = false)
    (h2 : s.hasPending = true)
    (h3 : ¬p.orderTimeout < i - s.pendingPlacedBar)
    (h4 : s.pendingDir = 1)
    (h5 : d.highs.getD i 0 ≥ s.pendingEntryPrice) :
    (v2StepCore d sig p i s).1.totalFills = s.totalFills + 1 := by
  unfold v2StepCore
  rw [if_neg (by rw [h1]; exact Bool.false_ne_true), if_pos h2, if_neg h3]
  dsimp only
  have hfill : (if s.pendingDir = 1 then
      d.highs.getD i 0 ≥ s.pendingEntryPrice
      else d.lows.getD i 0 ≤ s.pendingEntryPrice) := by
    rw [if_pos h4]
    exact h5
  rw [if_pos hfill]
  rw [if_pos h4]
  by_cases h6 : d.lows.getD i 0 ≤ s.pendingStopPrice
  · rw [if_pos h6]
  · rw [if_neg h6]

/-- C9: order expiration — with the order book empty of a position, a
pending order whose placement bar plus the timeout is strictly less than
the current bar is dropped before any fill test (the step reduces to the
entry block on the pending-free state, which records no trade and changes
no fill count); an unexpired long order whose trigger is reached — in
particular on the bar equal to placement bar plus the timeout — still
fills; and on the concrete scenario (order placed at bar 1, timeout 3,
trigger 200 never reached) the order is still pending at bar 4, is
dropped at bar 5 = 1 + 3 + 1, and the whole run records no trade and no
fill. -/
theorem c9_order_expiration :
    (∀ (d : MarketData) (sig : V2Signals) (p : V2Params) (i : ℕ)
        (s : V2BtState), s.inPosition = false → s.hasPending = true →
      p.orderTimeout < i - s.pendingPlacedBar →
      v2StepCore d sig p i s
        = v2EntryBlock d sig p i { s with hasPending := false }) ∧
    (∀ (d : MarketData) (sig : V2Signals) (p : V2Params) (i : ℕ)
        (s : V2BtState),
      (v2EntryBlock d sig p i s).1.totalFills = s.totalFills ∧
        (v2EntryBlock d sig p i s).2 = none) ∧
    (∀ (d : MarketData) (sig : V2Signals) (p : V2Params) (i : ℕ)
        (s : V2BtState), s.inPosition = false → s.hasPending = true →
      ¬p.orderTimeout < i - s.pendingPlacedBar → s.pendingDir = 1 →
      d.highs.getD i 0 ≥ s.pendingEntryPrice →
      (v2StepCore d sig p i s).1.totalFills = s.totalFills + 1) ∧
    (backtestV2Run v2pData v2pSignals v2pParams = [] ∧
      (v2StateAt v2pData v2pSignals v2pParams 5).hasPending = true ∧
      (v2StateAt v2pData v2pSignals v2pParams 5).pendingPlacedBar = 1 ∧
      (v2StateAt v2pData v2pSignals v2pParams 6).hasPending = false ∧
      (v2StateAt v2pData v2pSignals v2pParams 6).totalFills = 0) :=
  ⟨v2StepCore_expired, v2EntryBlock_noFill, v2StepCore_fill, by decide!⟩

/-- Witness for `c9_order_expiration`: at bar 5 an order placed at bar 1
with timeout 3 is expired and the step is the entry block on the
pending-free state; at bar 4 (placement bar + timeout) an order whose
trigger 100 is reached fills, incrementing the fill count. -/
theorem c9_order_expiration_witness :
    v2StepCore v2pData v2pSignals v2pParams 5
        { V2BtState.init with
            hasPending := true
            pendingDir := 1
            pendingPlacedBar := 1
            pendingEntryPrice := 200 }
      = v2EntryBlock v2pData v2pSignals v2pParams 5
          { V2BtState.init with
              hasPending := false
              pendingDir := 1
              pendingPlacedBar := 1
              pendingEntryPrice := 200 } ∧
    (v2StepCore v2pData v2pSignals v2pParams 4
        { V2BtState.init with
            hasPending := true
            pendingDir := 1
            pendingPlacedBar := 1
            pendingEntryPrice := 100 }).1.totalFills
      = ({ V2BtState.init with
            hasPending := true
            pendingDir := 1
            pendingPlacedBar := 1
            pendingEntryPrice := 100 } : V2BtState).totalFills + 1 :=
  ⟨c9_order_expiration.1 v2pData v2pSignals v2pParams 5
      { V2BtState.init with
          hasPending := true
          pendingDir := 1
          pendingPlacedBar := 1
          pendingEntryPrice := 200 } rfl rfl (by decide),
   c9_order_expiration.2.2.1 v2pData v2pSignals v2pParams 4
      { V2BtState.init with
          hasPending := true
          pendingDir := 1
          pendingPlacedBar := 1
          pendingEntryPrice := 100 } rfl rfl (by decide) rfl (by decide)⟩


/-! ### C10: global signal cooldown in `detect_signals_v2` -/

theorem v2TrySignals_signal_vals (d : MarketData) (p : V2Params) (i : ℕ)
    (a srTol : ℚ) (trendNow : ℤ) (zones2 : List SRZone)
    (supBreaks resBreaks : List (ℕ × ℚ)) (s1 : V2SigState) :
    (v2TrySignals d p i a srTol trendNow zones2 supBreaks resBreaks
        s1).2.signal = 0 ∨
      (v2TrySignals d p i a srTol trendNow zones2 supBreaks resBreaks
        s1).2.signal = 1 ∨
      (v2TrySignals d p i a srTol trendNow zones2 supBreaks resBreaks
        s1).2.signal = -1 := by
  unfold v2TrySignals
  rcases v2LongAttempt d p i a srTol trendNow zones2 supBreaks with _ | e
  · rcases v2ShortAttempt d p i a srTol trendNow zones2 resBreaks with _ | e
    · exact Or.inl rfl
    · exact Or.inr (Or.inr rfl)
  · exact Or.inr (Or.inl rfl)

theorem v2TrySignals_short_priority (d : MarketData) (p : V2Params) (i : ℕ)
    (a srTol : ℚ) (trendNow : ℤ) (zones2 : List SRZone)
    (supBreaks resBreaks : List (ℕ × ℚ)) (s1 : V2SigState)
    (h : (v2TrySignals d p i a srTol trendNow zones2 supBreaks resBreaks
        s1).2.signal = -1) :
    v2LongAttempt d p i a srTol trendNow zones2 supBreaks = none := by
  unfold v2TrySignals at h
  rcases hl : v2LongAttempt d p i a srTol trendNow zones2 supBreaks with _ | e
  · rfl
  · rw [hl] at h
    simp at h

theorem v2TrySignals_last (d : MarketData) (p : V2Params) (i : ℕ)
    (a srTol : ℚ) (trendNow : ℤ) (zones2 : List SRZone)
    (supBreaks resBreaks : List (ℕ × ℚ)) (s1 : V2SigState)
    (h5 : ¬(i : ℤ) - s1.lastSignalBar < 5) :
    ((v2TrySignals d p i a srTol trendNow zones2 supBreaks resBreaks
          s1).1.lastSignalBar = s1.lastSignalBar ∧
        (v2TrySignals d p i a srTol trendNow zones2 supBreaks resBreaks
          s1).2.signal = 0) ∨
      ((v2TrySignals d p i a srTol trendNow zones2 supBreaks resBreaks
          s1).1.lastSignalBar = (i : ℤ) ∧
        5 ≤ (i : ℤ) - s1.lastSignalBar ∧
        (v2TrySignals d p i a srTol trendNow zones2 supBreaks resBreaks
          s1).2.signal ≠ 0) := by
  unfold v2TrySignals
  rcases v2LongAttempt d p i a srTol trendNow zones2 supBreaks with _ | e
  · rcases v2ShortAttempt d p i a srTol trendNow zones2 resBreaks with _ | e
    · exact Or.inl ⟨rfl, rfl⟩
    · refine Or.inr ⟨rfl, by omega, ?_⟩
      dsimp only
      decide
  · refine Or.inr ⟨rfl, by omega, ?_⟩
    dsimp only
    decide

theorem v2SigStep_last (d : MarketData) (p : V2Params) (i : ℕ)
    (s : V2SigState) :
    ((v2SigStep d p i s).1.lastSignalBar = s.lastSignalBar ∧
        (v2SigStep d p i s).2.signal = 0) ∨
      ((v2SigStep d p i s).1.lastSignalBar = (i : ℤ) ∧
        5 ≤ (i : ℤ) - s.lastSignalBar ∧
        (v2SigStep d p i s).2.signal ≠ 0) := by
  unfold v2SigStep
  rcases d.atr.getD i none with _ | a
  · exact Or.inl ⟨rfl, rfl⟩
  · dsimp only
    by_cases ha : a ≤ 0
    · rw [if_pos ha]
      exact Or.inl ⟨rfl, rfl⟩
    · rw [if_neg ha]
      by_cases hcd : (i : ℤ) - s.lastSignalBar < 5
      · rw [if_pos hcd]
        exact Or.inl ⟨rfl, rfl⟩
      · rw [if_neg hcd]
        exact v2TrySignals_last _ _ _ _ _ _ _ _ _ _ hcd

theorem v2SigState_last_le (d : MarketData) (p : V2Params) (m : ℕ)
    (hm : 1 ≤ m) : (v2SigStateAt d p m).lastSignalBar ≤ (m : ℤ) - 1 := by
  induction m, hm using Nat.le_induction with
  | base =>
    have h0 : v2SigStateAt d p 1 = V2SigState.init := rfl
    rw [h0]
    decide
  | succ m hm ih =>
    have hstep : v2SigStateAt d p (m + 1)
        = (v2SigStep d p m (v2SigStateAt d p m)).1 := by
      have h0 : v2SigStateAt d p (m + 1)
          = if m = 0 then V2SigState.init
            else (v2SigStep d p m (v2SigStateAt d p m)).1 := rfl
      rw [h0, if_neg (by omega)]
    rcases v2SigStep_last d p m (v2SigStateAt d p m) with ⟨h1, _⟩ | ⟨h1, _, _⟩
    · rw [hstep, h1]
      omega
    · rw [hstep, h1]
      omega

theorem v2SigState_last_mono_step (d : MarketData) (p : V2Params) (m : ℕ)
    (hm : 1 ≤ m) :
    (v2SigStateAt d p m).lastSignalBar
      ≤ (v2SigStateAt d p (m + 1)).lastSignalBar := by
  have hinv := v2SigState_last_le d p m hm
  have hstep : v2SigStateAt d p (m + 1)
      = (v2SigStep d p m (v2SigStateAt d p m)).1 := by
    have h0 : v2SigStateAt d p (m + 1)
        = if m = 0 then V2SigState.init
          else (v2SigStep d p m (v2SigStateAt d p m)).1 := rfl
    rw [h0, if_neg (by omega)]
  rcases v2SigStep_last d p m (v2SigStateAt d p m) with ⟨h1, _⟩ | ⟨h1, _, _⟩
  · rw [hstep, h1]
  · rw [hstep, h1]
    omega

theorem v2SigState_last_mono (d : MarketData) (p : V2Params) (j k : ℕ)
    (hj : 1 ≤ j) (hjk : j ≤ k) :
    (v2SigStateAt d p j).lastSignalBar
      ≤ (v2SigStateAt d p k).lastSignalBar := by
  induction k, hjk using Nat.le_induction with
  | base => exact le_rfl
  | succ k hk ih =>
    exact ih.trans (v2SigState_last_mono_step d p k (hj.trans hk))

theorem v2Sig_gap (d : MarketData) (p : V2Params) (j k : ℕ) (hjk : j < k)
    (hj : (v2SigBar d p j).signal ≠ 0) (hk : (v2SigBar d p k).signal ≠ 0) :
    (j : ℤ) + 5 ≤ (k : ℤ) := by
  have hj0 : ¬j = 0 := by
    intro h0
    rw [h0] at hj
    exact hj rfl
  have hk0 : ¬k = 0 := by omega
  have hbj : v2SigBar d p j = (v2SigStep d p j (v2SigStateAt d p j)).2 := by
    unfold v2SigBar
    rw [if_neg hj0]
  have hbk : v2SigBar d p k = (v2SigStep d p k (v2SigStateAt d p k)).2 := by
    unfold v2SigBar
    rw [if_neg hk0]
  rcases v2SigStep_last d p j (v2SigStateAt d p j) with ⟨_, h2⟩ | ⟨hset, _, _⟩
  · rw [hbj] at hj
    exact absurd h2 hj
  · rcases v2SigStep_last d p k (v2SigStateAt d p k) with
      ⟨_, h2⟩ | ⟨_, hge, _⟩
    · rw [hbk] at hk
      exact absurd h2 hk
    · have hstepj : v2SigStateAt d p (j + 1)
          = (v2SigStep d p j (v2SigStateAt d p j)).1 := by
        have h0 : v2SigStateAt d p (j + 1)
            = if j = 0 then V2SigState.init
              else (v2SigStep d p j (v2SigStateAt d p j)).1 := rfl
        rw [h0, if_neg hj0]
      have hmono := v2SigState_last_mono d p (j + 1) k (by omega) (by omega)
      rw [hstepj, hset] at hmono
      omega

theorem v2SigBar_signal_vals (d : MarketData) (p : V2Params) (i : ℕ) :
    (v2SigBar d p i).signal = 0 ∨ (v2SigBar d p i).signal = 1 ∨
      (v2SigBar d p i).signal = -1 := by
  unfold v2SigBar
  by_cases h0 : i = 0
  · rw [if_pos h0]
    exact Or.inl rfl
  · rw [if_neg h0]
    unfold v2SigStep
    rcases d.atr.getD i none with _ | a
    · exact Or.inl rfl
    · dsimp only
      by_cases ha : a ≤ 0
      · rw [if_pos ha]
        exact Or.inl rfl
      · rw [if_neg ha]
        by_cases hcd : (i : ℤ) - (v2SigStateAt d p i).lastSignalBar < 5
        · rw [if_pos hcd]
          exact Or.inl rfl
        · rw [if_neg hcd]
          exact v2TrySignals_signal_vals _ _ _ _ _ _ _ _ _ _

/-- C10: the `detect_signals_v2` cooldown is global — any two bars whose
output rows carry a nonzero signal are at least 5 bars apart, regardless
of which zone produced them; each bar carries at most one signal (its
value is 0, 1 or −1); and a short signal is only emitted when the long
attempt at support returned nothing (long takes priority). -/
theorem c10_global_cooldown :
    (∀ (d : MarketData) (p : V2Params) (j k : ℕ), j < k →
      (v2SigBar d p j).signal ≠ 0 → (v2SigBar d p k).signal ≠ 0 →
      (j : ℤ) + 5 ≤ (k : ℤ)) ∧
    (∀ (d : MarketData) (p : V2Params) (i : ℕ),
      (v2SigBar d p i).signal = 0 ∨ (v2SigBar d p i).signal = 1 ∨
        (v2SigBar d p i).signal = -1) ∧
    (∀ (d : MarketData) (p : V2Params) (i : ℕ) (a srTol : ℚ)
        (trendNow : ℤ) (zones2 : List SRZone)
        (supBreaks resBreaks : List (ℕ × ℚ)) (s1 : V2SigState),
      (v2TrySignals d p i a srTol trendNow zones2 supBreaks resBreaks
          s1).2.signal = -1 →
      v2LongAttempt d p i a srTol trendNow zones2 supBreaks = none) :=
  ⟨v2Sig_gap, v2SigBar_signal_vals, v2TrySignals_short_priority⟩

/-- Witness for `c10_global_cooldown`: on the concrete S/R run signals are
emitted at bars 6 and 11, and the theorem instantiated there yields
6 + 5 ≤ 11 — the smallest admissible spacing. -/
theorem c10_global_cooldown_witness :
    (v2SigBar srData srParams 6).signal = 1 ∧
      (v2SigBar srData srParams 11).signal = 1 ∧
      (6 : ℤ) + 5 ≤ (11 : ℤ) :=
  ⟨by decide!, by decide!,
   c10_global_cooldown.1 srData srParams 6 11 (by decide) (by decide!)
     (by decide!)⟩


end Wave
